import Mathlib

/-!
# leptjson (tutorial02): null / true / false / number parser

A shallow embedding of `src/tutorial02/leptjson.c`.

* A C `char` is a natural number (its byte code); character constants are written
  `'x'.toNat`.
* A `const char*` is the list of bytes stored from the pointer onwards.  Reading at or
  beyond the end of the list yields `0`, so a list stands for the memory `mem ++ 0 0 0 ...`.
  The C string at a pointer is `cstr mem`, the bytes before the first `0`; whatever follows
  that terminator is memory that does not belong to the text.
* `p++` is `List.tail`, `p += k` is `List.drop k`, `*p` is `deref p`, `p[i]` is `p.getD i 0`.
* The C library (`strtod`, `HUGE_VAL`) is a parameter `CLib D`, with `D` the type of
  `double` values; `errno` is threaded explicitly.
-/

namespace Leptjson

/-! ## Declarations of `leptjson.h` -/

/-- Modelled from the spec: the header `leptjson.h` is not among the sources; these are the
value types `leptjson.c` assigns (spec §3: `Null | Boolean(bool) | Number`). -/
inductive lept_type where
  | LEPT_NULL
  | LEPT_FALSE
  | LEPT_TRUE
  | LEPT_NUMBER
  deriving DecidableEq, Repr

/-- Modelled from the spec: the status codes of `leptjson.h` (spec §6, exhaustive list:
`Ok=0, ExpectValue, InvalidValue, RootNotSingular, NumberTooBig`). -/
inductive lept_status where
  | LEPT_PARSE_OK
  | LEPT_PARSE_EXPECT_VALUE
  | LEPT_PARSE_INVALID_VALUE
  | LEPT_PARSE_ROOT_NOT_SINGULAR
  | LEPT_PARSE_NUMBER_TOO_BIG
  deriving DecidableEq, Repr

open lept_type lept_status

/-- Modelled from the spec: `lept_value` of `leptjson.h`, a number field `n` and a `type` tag
(the C struct keeps both fields whatever the tag says). -/
structure lept_value (D : Type) where
  n : D
  type : lept_type
  deriving DecidableEq, Repr

/-- The parse cursor `lept_context`: `json` is the memory from the cursor onwards. -/
structure lept_context where
  json : List Nat
  deriving DecidableEq, Repr

/-- What a call `f(c, v)` of a parsing function leaves behind: the status it returns and the
objects behind its two pointers. -/
structure Ret (D : Type) where
  ret : lept_status
  c : lept_context
  v : lept_value D
  deriving DecidableEq, Repr

/-! ## Memory and the C library -/

/-- The byte read by `*p`. -/
def deref (p : List Nat) : Nat := p.headD 0

/-- The C string at `p`: the bytes before the first NUL. -/
def cstr (p : List Nat) : List Nat := p.takeWhile (fun ch => decide (ch ≠ 0))

/-- The bytes of an ASCII string literal (without the terminator). -/
def bytes (s : String) : List Nat := s.toList.map Char.toNat

/-- What one call `strtod(s, &end)` produces: the value, `end - s`, and whether it stored
`ERANGE` into `errno` (on success `strtod` leaves `errno` alone). -/
structure StrtodOut (D : Type) where
  n : D
  len : Nat
  erange : Bool
  deriving DecidableEq, Repr

/-- The part of the C library the parser calls: `strtod`, a function of the C string it is
given, and the test `x == HUGE_VAL || x == -HUGE_VAL`. -/
structure CLib (D : Type) where
  strtod : List Nat → StrtodOut D
  is_huge : D → Bool

/-- The value of `ERANGE` in `errno.h` (Linux); the C standard makes it positive. -/
def ERANGE : Int := 34

/-! ## Macros and constants of `leptjson.c` -/

/-- The macro `ISDIGIT(ch)`. -/
def ISDIGIT (ch : Nat) : Prop := '0'.toNat ≤ ch ∧ ch ≤ '9'.toNat

instance : DecidablePred ISDIGIT := fun ch => by unfold ISDIGIT; infer_instance

/-- The macro `ISDIGIT1TO9(ch)`. -/
def ISDIGIT1TO9 (ch : Nat) : Prop := '1'.toNat ≤ ch ∧ ch ≤ '9'.toNat

instance : DecidablePred ISDIGIT1TO9 := fun ch => by unfold ISDIGIT1TO9; infer_instance

def FALSE : Int := 0

def TRUE : Int := 1

def UNKNOWN : Int := 2

/-- The loop condition of `lept_parse_whitespace`. -/
def isWs (ch : Nat) : Prop :=
  ch = ' '.toNat ∨ ch = '\t'.toNat ∨ ch = '\n'.toNat ∨ ch = '\r'.toNat

instance : DecidablePred isWs := fun ch => by unfold isWs; infer_instance

/-! ## Whitespace and literals -/

/-- `lept_parse_whitespace`: `while (*p is space, tab, LF or CR) p++`. -/
def lept_parse_whitespace (c : lept_context) : lept_context :=
  ⟨c.json.dropWhile (fun ch => decide (isWs ch))⟩

/-- The `for` loop of `lept_parse_literal`, `k` iterations from index `i` on: `true` when
some `c->json[i-1] != literal[i]` makes the function return early. -/
def literal_loop (json literal : List Nat) : Nat → Nat → Bool
  | 0, _ => false
  | k + 1, i =>
    if json.getD (i - 1) 0 ≠ literal.getD i 0 then true
    else literal_loop json literal k (i + 1)

/-- `lept_parse_literal`.  `EXPECT(c, literal[0])` asserts `*c->json == literal[0]` (every
caller has just tested that byte) and steps over it; the loop runs for `i = 1 .. length-1`,
with `length` at least 1 as in every call (4 or 5). -/
def lept_parse_literal {D : Type} (c : lept_context) (v : lept_value D)
    (literal : List Nat) (length : Nat) (type : lept_type) : Ret D :=
  let c1 : lept_context := ⟨c.json.tail⟩
  if literal_loop c1.json literal (length - 1) 1 then ⟨LEPT_PARSE_INVALID_VALUE, c1, v⟩
  else ⟨LEPT_PARSE_OK, ⟨c1.json.drop (length - 1)⟩, { v with type := type }⟩

def lept_parse_true {D : Type} (c : lept_context) (v : lept_value D) : Ret D :=
  lept_parse_literal c v (bytes "true") 4 LEPT_TRUE

def lept_parse_false {D : Type} (c : lept_context) (v : lept_value D) : Ret D :=
  lept_parse_literal c v (bytes "false") 5 LEPT_FALSE

def lept_parse_null {D : Type} (c : lept_context) (v : lept_value D) : Ret D :=
  lept_parse_literal c v (bytes "null") 4 LEPT_NULL

/-! ## The number validator -/

/-- The anonymous `enum` of scan phases. -/
inductive Phase where
  | NUMBER_BEGIN
  | NUMBER_SYMBOL
  | NUMBER_ZERO_OR_OTHER
  | NUMBER_ZERO
  | NUMBER_DIGIT
  | NUMBER_DOT
  | NUMBER_EXPONENT
  | NUMBER_END
  deriving DecidableEq, Repr

open Phase

/-- The local variables of `validateNumberText`. -/
structure VState where
  hasDot : Bool
  hasExponent : Bool
  p : List Nat
  phase : Phase
  deriving DecidableEq, Repr

/-- One pass through the `switch`: either the function returns, or the loop goes on. -/
inductive VStep where
  | ret (flag : Int)
  | next (st : VState)
  deriving DecidableEq, Repr

/-- The scan `for (...; ISDIGIT(*p); p++);` once its initialiser `p++` has run. -/
def skip_digits (p : List Nat) : List Nat := p.dropWhile (fun ch => decide (ISDIGIT ch))

/-- The body of the `while` loop of `validateNumberText`: the `switch (phase)`.
`NUMBER_ZERO` has no `case` and falls to `default`. -/
def vStep (st : VState) : VStep :=
  match st.phase with
  | NUMBER_BEGIN => .next { st with phase := NUMBER_SYMBOL }
  | NUMBER_SYMBOL =>
    if deref st.p = '-'.toNat then
      .next { st with p := st.p.tail, phase := NUMBER_ZERO_OR_OTHER }
    else if ISDIGIT (deref st.p) then
      .next { st with phase := NUMBER_ZERO_OR_OTHER }
    else .ret FALSE
  | NUMBER_DIGIT =>
    let p := skip_digits st.p.tail
    if deref p = '.'.toNat then
      if st.hasDot then .ret FALSE
      else .next { st with p := p.tail, phase := NUMBER_DOT }
    else if deref p = 'e'.toNat ∨ deref p = 'E'.toNat then
      if st.hasExponent then .ret FALSE
      else .next { st with p := p.tail, phase := NUMBER_EXPONENT }
    else if deref p = 0 then
      .next { st with p := p, phase := NUMBER_END }
    else .ret FALSE
  | NUMBER_ZERO_OR_OTHER =>
    if deref st.p = '0'.toNat then
      let p := st.p.tail
      if deref p = '.'.toNat then
        .next { st with p := p.tail, phase := NUMBER_DOT }
      else if deref p = 0 then
        .next { st with p := p, phase := NUMBER_END }
      else .ret UNKNOWN
    else if ISDIGIT1TO9 (deref st.p) then
      .next { st with phase := NUMBER_DIGIT }
    else .ret FALSE
  | NUMBER_DOT =>
    if ISDIGIT (deref st.p) then
      .next { st with hasDot := true, phase := NUMBER_DIGIT }
    else .ret FALSE
  | NUMBER_EXPONENT =>
    if deref st.p = '+'.toNat ∨ deref st.p = '-'.toNat then
      .next { st with hasExponent := true, p := st.p.tail, phase := NUMBER_DIGIT }
    else if ISDIGIT (deref st.p) then
      .next { st with hasExponent := true, phase := NUMBER_DIGIT }
    else .ret FALSE
  | NUMBER_END => .next st
  | NUMBER_ZERO => .ret FALSE

/-- The `while (phase != NUMBER_END)` loop, run for at most `fuel` passes through the body;
`none` when the passes are used up before the loop is left. -/
def vLoop : Nat → VState → Option Int
  | 0, st => if st.phase = NUMBER_END then some TRUE else none
  | fuel + 1, st =>
    if st.phase = NUMBER_END then some TRUE
    else
      match vStep st with
      | .ret flag => some flag
      | .next st1 => vLoop fuel st1

/-- A bound on the number of passes still to come: each phase is left for one that is
later in the scan, and `.` / exponent phases are entered only while their flag is clear. -/
def vMeasure (st : VState) : Nat :=
  let d := if st.hasDot then 0 else 1
  let e := if st.hasExponent then 0 else 1
  match st.phase with
  | NUMBER_BEGIN => 5 + 2 * (d + e)
  | NUMBER_SYMBOL => 4 + 2 * (d + e)
  | NUMBER_ZERO_OR_OTHER => 3 + 2 * (d + e)
  | NUMBER_ZERO => 1
  | NUMBER_DIGIT => 1 + 2 * (d + e)
  | NUMBER_DOT => 2 + 2 * e
  | NUMBER_EXPONENT => 2 + 2 * d
  | NUMBER_END => 0

/-- The local variables of `validateNumberText` on entry to the loop. -/
def vInit (c : lept_context) : VState :=
  { hasDot := false, hasExponent := false, p := c.json, phase := NUMBER_BEGIN }

/-- Each pass through the loop body lowers `vMeasure`. -/
theorem vStep_measure (st st1 : VState) (hp : st.phase ≠ NUMBER_END)
    (h : vStep st = .next st1) : vMeasure st1 < vMeasure st := by
  obtain ⟨hd, he, p, ph⟩ := st
  cases ph <;> cases hd <;> cases he <;> simp only [vStep] at h <;>
    first
    | exact absurd rfl hp
    | (split_ifs at h <;> cases h <;> simp [vMeasure])
    | (cases h <;> simp [vMeasure])

/-- With `vMeasure st` passes the loop is always left. -/
theorem vLoop_isSome : ∀ (fuel : Nat) (st : VState), vMeasure st ≤ fuel →
    (vLoop fuel st).isSome = true := by
  intro fuel
  induction fuel with
  | zero =>
    intro st h
    obtain ⟨hd, he, p, ph⟩ := st
    cases ph <;> simp [vMeasure] at h
    simp [vLoop]
  | succ n ih =>
    intro st h
    unfold vLoop
    split_ifs with hp
    · rfl
    · cases hs : vStep st with
      | ret flag => rfl
      | next st1 =>
        have := vStep_measure st st1 hp hs
        exact ih st1 (by omega)

/-- `validateNumberText`: nine passes always suffice (`vLoop_isSome`), so the function is
total. -/
def validateNumberText (c : lept_context) : Int :=
  (vLoop 9 (vInit c)).get (vLoop_isSome 9 (vInit c) (by simp [vMeasure, vInit]))

/-- The local variables of `validateNumberText` after `n` passes through the loop body, or
as they stood when the loop was left or the function returned, if that came first. -/
def vIter : Nat → VState → VState
  | 0, st => st
  | n + 1, st =>
    if st.phase = NUMBER_END then st
    else
      match vStep st with
      | .ret _ => st
      | .next st1 => vIter n st1

/-- The number of times the condition of `for (p++; ISDIGIT(*p); p++);` holds and its
increment runs, started with the cursor at `p`: one for each digit that follows the first
step. -/
def for_iterations (p : List Nat) : Nat :=
  (p.tail.takeWhile (fun ch => decide (ISDIGIT ch))).length

/-- The loop iterations `validateNumberText` makes in its first `n` passes: one for each
pass through the body of the `while` loop, and in a `NUMBER_DIGIT` pass those of the `for`
loop as well. -/
def vCount : Nat → VState → Nat
  | 0, _ => 0
  | n + 1, st =>
    if st.phase = NUMBER_END then 0
    else
      (1 + (if st.phase = NUMBER_DIGIT then for_iterations st.p else 0)) +
        match vStep st with
        | .ret _ => 0
        | .next st1 => vCount n st1

/-- The string `1e+` in a buffer that holds `N` digits `5` behind the terminator. -/
def sign_then_digits (N : Nat) : List Nat :=
  bytes "1e+" ++ 0 :: List.replicate N '5'.toNat

/-! ## Numbers, dispatch and the entry point -/

/-- `lept_parse_number`, with `errno` passed in and out next to the result. -/
def lept_parse_number {D : Type} (L : CLib D) (errno : Int) (c : lept_context)
    (v : lept_value D) : Ret D × Int :=
  let flag := validateNumberText c
  if flag = FALSE then (⟨LEPT_PARSE_INVALID_VALUE, c, { v with type := LEPT_NULL }⟩, errno)
  else if flag = UNKNOWN then
    (⟨LEPT_PARSE_ROOT_NOT_SINGULAR, c, { v with type := LEPT_NULL }⟩, errno)
  else
    let errno0 : Int := 0
    let r := L.strtod (cstr c.json)
    let errno1 : Int := if r.erange then ERANGE else errno0
    let v1 : lept_value D := { v with n := r.n }
    if errno1 = ERANGE ∧ L.is_huge v1.n = true then (⟨LEPT_PARSE_NUMBER_TOO_BIG, c, v1⟩, errno1)
    else if r.len = 0 then (⟨LEPT_PARSE_INVALID_VALUE, c, v1⟩, errno1)
    else (⟨LEPT_PARSE_OK, ⟨c.json.drop r.len⟩, { v1 with type := LEPT_NUMBER }⟩, errno1)

/-- `lept_parse_value`: the `switch (*c->json)`. -/
def lept_parse_value {D : Type} (L : CLib D) (errno : Int) (c : lept_context)
    (v : lept_value D) : Ret D × Int :=
  if deref c.json = 't'.toNat then (lept_parse_true c v, errno)
  else if deref c.json = 'f'.toNat then (lept_parse_false c v, errno)
  else if deref c.json = 'n'.toNat then (lept_parse_null c v, errno)
  else if deref c.json = 0 then (⟨LEPT_PARSE_EXPECT_VALUE, c, v⟩, errno)
  else lept_parse_number L errno c v

/-- What the caller of `lept_parse` observes afterwards. -/
structure lept_result (D : Type) where
  ret : lept_status
  v : lept_value D
  errno : Int
  deriving DecidableEq, Repr

/-- `lept_parse(v, json)`, started with `*v = v` and the given `errno`. -/
def lept_parse {D : Type} (L : CLib D) (errno : Int) (v : lept_value D)
    (json : List Nat) : lept_result D :=
  let c0 : lept_context := ⟨json⟩
  let v0 : lept_value D := { v with type := LEPT_NULL }
  let c1 := lept_parse_whitespace c0
  let r := lept_parse_value L errno c1 v0
  if r.1.ret = LEPT_PARSE_OK then
    let c2 := lept_parse_whitespace r.1.c
    if deref c2.json ≠ 0 then
      ⟨LEPT_PARSE_ROOT_NOT_SINGULAR, { r.1.v with type := LEPT_NULL }, r.2⟩
    else ⟨r.1.ret, r.1.v, r.2⟩
  else ⟨r.1.ret, r.1.v, r.2⟩

/-- `lept_get_type`. -/
def lept_get_type {D : Type} (v : lept_value D) : lept_type := v.type

/-- `lept_get_number`; the C function asserts `v->type == LEPT_NUMBER`. -/
def lept_get_number {D : Type} (v : lept_value D) : D := v.n

/-! ## A decimal `strtod` to run the parser on concrete texts -/

/-- A `double` as far as the sample library below distinguishes them: the exact decimal
`(-1)^neg * mant * 10^exp10` that was read, or plus/minus `HUGE_VAL`. -/
inductive Dbl where
  | fin (neg : Bool) (mant : Nat) (exp10 : Int)
  | huge (neg : Bool)
  deriving DecidableEq, Repr

/-- The value of a run of decimal digits. -/
def digits_val (ds : List Nat) : Nat := ds.foldl (fun a d => 10 * a + (d - '0'.toNat)) 0

/-- The C library's `isspace` in the "C" locale. -/
def isspace (ch : Nat) : Prop :=
  ch = ' '.toNat ∨ ('\t'.toNat ≤ ch ∧ ch ≤ '\r'.toNat)

instance : DecidablePred isspace := fun ch => by unfold isspace; infer_instance

/-- The power `b^k` by repeated multiplication. -/
def pow_nat (b : Nat) : Nat → Nat
  | 0 => 1
  | k + 1 => b * pow_nat b k

/-- The number `2^1024 - 2^970`, that is `(2^54 - 1) * 2^970`. -/
def dbl_limit : Nat := (2 ^ 54 - 1) <<< 970

/-- Whether `mant * 10^exp10` is beyond the largest `double` (it rounds to infinity from
`2^1024 - 2^970` on). -/
def dec_overflows (mant : Nat) (exp10 : Int) : Prop :=
  if 0 ≤ exp10 then dbl_limit ≤ mant * pow_nat 10 exp10.toNat
  else dbl_limit * pow_nat 10 (-exp10).toNat ≤ mant

instance : ∀ m e, Decidable (dec_overflows m e) := fun m e => by
  unfold dec_overflows; infer_instance

/-- Whether `mant * 10^exp10` is a non-zero value below the least normal `double`,
`2^-1022`. -/
def dec_underflows (mant : Nat) (exp10 : Int) : Prop :=
  mant ≠ 0 ∧ exp10 < 0 ∧ mant <<< 1022 < pow_nat 10 (-exp10).toNat

instance : ∀ m e, Decidable (dec_underflows m e) := fun m e => by
  unfold dec_underflows; infer_instance

/-- Sample `strtod` for decimal input, after the C standard's description: skip white space,
an optional sign, digits with an optional `.` (at least one digit in all), then an exponent
part only if it has a digit.  The value is kept exact instead of rounded; overflow gives
`HUGE_VAL` and `ERANGE`, underflow gives `ERANGE` with the tiny value; hexadecimal, `inf`
and `nan` are left out. -/
def strtod_dec (s : List Nat) : StrtodOut Dbl :=
  let s0 := s.dropWhile (fun ch => decide (isspace ch))
  let neg := decide (deref s0 = '-'.toNat)
  let s1 := if deref s0 = '-'.toNat ∨ deref s0 = '+'.toNat then s0.tail else s0
  let ip := s1.takeWhile (fun ch => decide (ISDIGIT ch))
  let s2 := skip_digits s1
  let fp := if deref s2 = '.'.toNat then s2.tail.takeWhile (fun ch => decide (ISDIGIT ch)) else []
  let s3 := if deref s2 = '.'.toNat then skip_digits s2.tail else s2
  if ip = [] ∧ fp = [] then ⟨.fin false 0 0, 0, false⟩
  else
    let t := s3.tail
    let t1 := if deref t = '-'.toNat ∨ deref t = '+'.toNat then t.tail else t
    let ed := t1.takeWhile (fun ch => decide (ISDIGIT ch))
    let hasExp := decide ((deref s3 = 'e'.toNat ∨ deref s3 = 'E'.toNat) ∧ ed ≠ [])
    let s4 := if hasExp then skip_digits t1 else s3
    let ev : Int := if hasExp then (if deref t = '-'.toNat then -(digits_val ed : Int)
      else (digits_val ed : Int)) else 0
    let e : Int := ev - (fp.length : Int)
    let m := digits_val (ip ++ fp)
    if dec_overflows m e then ⟨.huge neg, s.length - s4.length, true⟩
    else if dec_underflows m e then ⟨.fin neg m e, s.length - s4.length, true⟩
    else ⟨.fin neg m e, s.length - s4.length, false⟩

/-- The sample C library. -/
def libc_dec : CLib Dbl :=
  { strtod := strtod_dec
    is_huge := fun x => match x with
      | .huge _ => true
      | .fin _ _ _ => false }

/-! ## The JSON number grammar, as the specification words it -/

/-- Every byte of `ds` is an ASCII digit. -/
def AllDigits (ds : List Nat) : Prop := ∀ d ∈ ds, ISDIGIT d

instance : DecidablePred AllDigits := fun ds => by unfold AllDigits; infer_instance

/-- Integer part: `0`, or a digit 1-9 followed by digits. -/
def JsonInt (i : List Nat) : Prop :=
  i = ['0'.toNat] ∨ ∃ d ds, i = d :: ds ∧ ISDIGIT1TO9 d ∧ AllDigits ds

/-- Optional fraction: nothing, or `.` and one or more digits. -/
def JsonFrac (f : List Nat) : Prop :=
  f = [] ∨ ∃ ds, f = '.'.toNat :: ds ∧ ds ≠ [] ∧ AllDigits ds

/-- Optional exponent: nothing, or `e`/`E`, an optional sign and one or more digits. -/
def JsonExp (x : List Nat) : Prop :=
  x = [] ∨ ∃ e sg ds, x = e :: (sg ++ ds) ∧ (e = 'e'.toNat ∨ e = 'E'.toNat) ∧
    (sg = [] ∨ sg = ['+'.toNat] ∨ sg = ['-'.toNat]) ∧ ds ≠ [] ∧ AllDigits ds

/-- A valid JSON number literal: optional `-`, integer part, optional fraction, optional
exponent. -/
def JsonNumber (s : List Nat) : Prop :=
  ∃ sg i f x, s = sg ++ i ++ f ++ x ∧ (sg = [] ∨ sg = ['-'.toNat]) ∧
    JsonInt i ∧ JsonFrac f ∧ JsonExp x

/-- A run of whitespace: every byte is space, tab, LF or CR. -/
def AllWs (w : List Nat) : Prop := ∀ ch ∈ w, isWs ch

instance : DecidablePred AllWs := fun w => by unfold AllWs; infer_instance

/-- The first bytes on which `lept_parse`, after skipping whitespace, takes the `default`
branch of `lept_parse_value`. -/
def NumberStart (ch : Nat) : Prop :=
  ch ≠ 't'.toNat ∧ ch ≠ 'f'.toNat ∧ ch ≠ 'n'.toNat ∧ ch ≠ 0 ∧ ¬ isWs ch

instance : DecidablePred NumberStart := fun ch => by unfold NumberStart; infer_instance

/-- The three literals with the type each one stands for. -/
def literals : List (List Nat × lept_type) :=
  [(bytes "null", LEPT_NULL), (bytes "true", LEPT_TRUE), (bytes "false", LEPT_FALSE)]

/-- A sample output object. -/
def v_init : lept_value Dbl := ⟨.fin false 0 0, LEPT_TRUE⟩

/-! # Properties -/

/-! ## Memory lemmas -/

@[simp] theorem deref_nil : deref [] = 0 := rfl

@[simp] theorem deref_cons (a : Nat) (p : List Nat) : deref (a :: p) = a := rfl

/-- A list whose first byte is not NUL is not empty. -/
theorem exists_cons_of_deref_ne_zero {p : List Nat} (h : deref p ≠ 0) :
    ∃ a q, p = a :: q ∧ a = deref p := by
  cases p with
  | nil => simp at h
  | cons a q => exact ⟨a, q, rfl, rfl⟩

/-- The memory at a pointer is its C string followed by memory that starts with NUL. -/
theorem cstr_split (mem : List Nat) : ∃ t, mem = cstr mem ++ t ∧ deref t = 0 := by
  refine ⟨mem.dropWhile (fun ch => decide (ch ≠ 0)), ?_, ?_⟩
  · exact (List.takeWhile_append_dropWhile _ mem).symm
  · induction mem with
    | nil => rfl
    | cons a q ih =>
      by_cases ha : a = 0
      · simp [List.dropWhile, ha]
      · simpa [List.dropWhile, ha] using ih

theorem cstr_nulfree (mem : List Nat) : ∀ ch ∈ cstr mem, ch ≠ 0 := by
  intro ch h
  have := List.mem_takeWhile_imp h
  simpa using this

/-- The C string of NUL-free bytes followed by memory that starts with NUL. -/
theorem cstr_append (a t : List Nat) (ha : ∀ ch ∈ a, ch ≠ 0) (ht : deref t = 0) :
    cstr (a ++ t) = a := by
  induction a with
  | nil =>
    cases t with
    | nil => rfl
    | cons b q => simp at ht; simp [cstr, List.takeWhile, ht]
  | cons b q ih =>
    have hb : b ≠ 0 := ha b (by simp)
    have := ih (fun ch h => ha ch (by simp [h]))
    simp [cstr, List.takeWhile, hb] at this ⊢
    exact this

theorem isWs_ne_zero {ch : Nat} (h : isWs ch) : ch ≠ 0 := by
  simp [isWs] at h; omega

theorem not_isWs_zero : ¬ isWs 0 := by decide

/-- Skipping whitespace stops at the first byte that is none. -/
theorem ws_skip_append (w p : List Nat) (hw : AllWs w) (hp : ¬ isWs (deref p)) :
    lept_parse_whitespace ⟨w ++ p⟩ = ⟨p⟩ := by
  simp only [lept_parse_whitespace, lept_context.mk.injEq]
  induction w with
  | nil =>
    cases p with
    | nil => rfl
    | cons b q => simp at hp; simp [List.dropWhile, hp]
  | cons b q ih =>
    have hb : isWs b := hw b (by simp)
    simp [List.dropWhile, hb]
    exact ih (fun ch h => hw ch (by simp [h]))

theorem ws_skip_id (p : List Nat) (hp : ¬ isWs (deref p)) :
    lept_parse_whitespace ⟨p⟩ = ⟨p⟩ := by
  simpa using ws_skip_append [] p (by simp [AllWs]) hp

/-- Skipping whitespace splits the memory into the run skipped and what is left. -/
theorem ws_skip_split (p : List Nat) :
    ∃ w, AllWs w ∧ p = w ++ (lept_parse_whitespace ⟨p⟩).json ∧
      ¬ isWs (deref (lept_parse_whitespace ⟨p⟩).json) := by
  refine ⟨p.takeWhile (fun ch => decide (isWs ch)), ?_, ?_, ?_⟩
  · intro ch h
    simpa using List.mem_takeWhile_imp h
  · exact (List.takeWhile_append_dropWhile _ p).symm
  · simp only [lept_parse_whitespace]
    induction p with
    | nil => simpa using not_isWs_zero
    | cons a q ih =>
      by_cases ha : isWs a
      · simpa [List.dropWhile, ha] using ih
      · simp [List.dropWhile, ha]

/-! ## Failure leaves the type `LEPT_NULL` -/

/-- A failed literal match leaves the value as it was. -/
theorem lept_parse_literal_fail {D : Type} (c : lept_context) (v : lept_value D)
    (literal : List Nat) (length : Nat) (type : lept_type)
    (h : (lept_parse_literal c v literal length type).ret ≠ LEPT_PARSE_OK) :
    (lept_parse_literal c v literal length type).v = v := by
  unfold lept_parse_literal at h ⊢
  simp only at h ⊢
  split_ifs at h ⊢ <;> simp_all

/-- A failed number parse leaves the type `LEPT_NULL` when it was so before. -/
theorem lept_parse_number_fail {D : Type} (L : CLib D) (errno : Int) (c : lept_context)
    (v : lept_value D) (hv : v.type = LEPT_NULL)
    (h : (lept_parse_number L errno c v).1.ret ≠ LEPT_PARSE_OK) :
    (lept_parse_number L errno c v).1.v.type = LEPT_NULL := by
  unfold lept_parse_number at h ⊢
  simp only at h ⊢
  split_ifs at h ⊢ <;> simp_all

/-- A failed dispatch leaves the type `LEPT_NULL` when it was so before. -/
theorem lept_parse_value_fail {D : Type} (L : CLib D) (errno : Int) (c : lept_context)
    (v : lept_value D) (hv : v.type = LEPT_NULL)
    (h : (lept_parse_value L errno c v).1.ret ≠ LEPT_PARSE_OK) :
    (lept_parse_value L errno c v).1.v.type = LEPT_NULL := by
  unfold lept_parse_value at h ⊢
  split_ifs at h ⊢
  · simp only [lept_parse_true] at h ⊢; rw [lept_parse_literal_fail _ _ _ _ _ h]; exact hv
  · simp only [lept_parse_false] at h ⊢; rw [lept_parse_literal_fail _ _ _ _ _ h]; exact hv
  · simp only [lept_parse_null] at h ⊢; rw [lept_parse_literal_fail _ _ _ _ _ h]; exact hv
  · exact hv
  · exact lept_parse_number_fail L errno c v hv h

/-- C1: whenever `lept_parse` returns a status other than `LEPT_PARSE_OK`, the type of the
output value afterwards is `LEPT_NULL`, whatever the value (and `errno`) held before. -/
theorem C1_error_forces_null {D : Type} (L : CLib D) (errno : Int) (v : lept_value D)
    (json : List Nat) (h : (lept_parse L errno v json).ret ≠ LEPT_PARSE_OK) :
    (lept_parse L errno v json).v.type = LEPT_NULL := by
  unfold lept_parse at h ⊢
  simp only at h ⊢
  split_ifs at h ⊢ with h1 h2
  · rfl
  · exact absurd h1 h
  · exact lept_parse_value_fail L errno _ _ rfl h1

/-- C1 at the text `1e` with an output value that held `LEPT_TRUE`. -/
theorem C1_error_forces_null_witness :
    v_init.type = LEPT_TRUE ∧
    (lept_parse libc_dec 0 v_init (bytes "1e")).ret = LEPT_PARSE_INVALID_VALUE ∧
    (lept_parse libc_dec 0 v_init (bytes "1e")).v.type = LEPT_NULL :=
  ⟨rfl, by decide, C1_error_forces_null libc_dec 0 v_init (bytes "1e") (by decide)⟩

/-! ## Numbers that pass the validator -/

/-- A JSON number literal starts with `-` or a digit. -/
theorem jsonNumber_head {s : List Nat} (h : JsonNumber s) :
    ∃ a q, s = a :: q ∧ (a = '-'.toNat ∨ ISDIGIT a) := by
  obtain ⟨sg, i, f, x, rfl, hsg, hi, -, -⟩ := h
  rcases hsg with rfl | rfl
  · rcases hi with rfl | ⟨d, ds, rfl, hd, -⟩
    · exact ⟨'0'.toNat, f ++ x, by simp, Or.inr (by decide)⟩
    · refine ⟨d, ds ++ f ++ x, by simp, Or.inr ?_⟩
      simp only [ISDIGIT1TO9, Char.reduceToNat] at hd
      simp only [ISDIGIT, Char.reduceToNat]
      omega
  · exact ⟨'-'.toNat, i ++ f ++ x, by simp, Or.inl rfl⟩

/-- What `lept_parse` does with a text whose first byte sends it to the number path, once
the validator has said `TRUE` and `strtod` has consumed the whole text without overflow. -/
theorem lept_parse_number_ok {D : Type} (L : CLib D) (errno : Int) (v : lept_value D)
    (json : List Nat) (a : Nat) (q : List Nat) (hs : cstr json = a :: q)
    (ha : a = '-'.toNat ∨ ISDIGIT a)
    (hval : validateNumberText ⟨json⟩ = TRUE)
    (hlen : (L.strtod (cstr json)).len = (cstr json).length)
    (hov : ¬ ((L.strtod (cstr json)).erange = true ∧
      L.is_huge (L.strtod (cstr json)).n = true)) :
    lept_parse L errno v json =
      ⟨LEPT_PARSE_OK, ⟨(L.strtod (cstr json)).n, LEPT_NUMBER⟩,
        if (L.strtod (cstr json)).erange then ERANGE else 0⟩ := by
  obtain ⟨t, hmem, ht⟩ := cstr_split json
  have hd : deref json = a := by rw [hmem, hs]; rfl
  have hnw : ¬ isWs (deref json) := by
    rw [hd]; simp only [isWs, ISDIGIT, Char.reduceToNat] at ha ⊢; omega
  have hnt : ¬ isWs (deref t) := by rw [ht]; exact not_isWs_zero
  have hdrop : List.drop (cstr json).length json = t := by
    have h := @List.drop_left Nat (cstr json) t
    rw [← hmem] at h
    exact h
  have hpos : (cstr json).length ≠ 0 := by rw [hs]; simp
  have hER : ERANGE ≠ 0 := by decide
  unfold lept_parse
  simp only [ws_skip_id json hnw]
  have hv : lept_parse_value L errno ⟨json⟩ { v with type := LEPT_NULL } =
      (⟨LEPT_PARSE_OK, ⟨t⟩, ⟨(L.strtod (cstr json)).n, LEPT_NUMBER⟩⟩,
        if (L.strtod (cstr json)).erange then ERANGE else 0) := by
    unfold lept_parse_value
    have h1 : a ≠ 't'.toNat := by simp only [ISDIGIT, Char.reduceToNat] at ha ⊢; omega
    have h2 : a ≠ 'f'.toNat := by simp only [ISDIGIT, Char.reduceToNat] at ha ⊢; omega
    have h3 : a ≠ 'n'.toNat := by simp only [ISDIGIT, Char.reduceToNat] at ha ⊢; omega
    have h4 : a ≠ 0 := by simp only [ISDIGIT, Char.reduceToNat] at ha ⊢; omega
    simp only [hd, h1, h2, h3, h4, if_false]
    unfold lept_parse_number
    simp only [hval, hlen, hdrop]
    have hT1 : TRUE ≠ FALSE := by decide
    have hT2 : TRUE ≠ UNKNOWN := by decide
    simp only [hT1, hT2, if_false, hpos]
    by_cases he : (L.strtod (cstr json)).erange = true
    · have hh : ¬ (L.is_huge (L.strtod (cstr json)).n = true) := fun hh => hov ⟨he, hh⟩
      simp [he, hh]
    · simp [he, hER.symm]
  rw [hv]
  simp only [ws_skip_id t hnt, ht]
  simp

/-- C2: for a text that is a valid JSON number literal and that `validateNumberText`
accepts, if `strtod` consumes exactly the whole literal and does not overflow, `lept_parse`
returns `LEPT_PARSE_OK`, the type is `LEPT_NUMBER` and the number is the result `strtod`
gave for that literal. -/
theorem C2_valid_number_parses {D : Type} (L : CLib D) (errno : Int) (v : lept_value D)
    (json : List Nat) (hnum : JsonNumber (cstr json))
    (hval : validateNumberText ⟨json⟩ = TRUE)
    (hlen : (L.strtod (cstr json)).len = (cstr json).length)
    (hov : ¬ ((L.strtod (cstr json)).erange = true ∧
      L.is_huge (L.strtod (cstr json)).n = true)) :
    (lept_parse L errno v json).ret = LEPT_PARSE_OK ∧
    lept_get_type (lept_parse L errno v json).v = LEPT_NUMBER ∧
    lept_get_number (lept_parse L errno v json).v = (L.strtod (cstr json)).n := by
  obtain ⟨a, q, hs, ha⟩ := jsonNumber_head hnum
  rw [lept_parse_number_ok L errno v json a q hs ha hval hlen hov]
  exact ⟨rfl, rfl, rfl⟩

theorem jsonNumber_zero : JsonNumber (cstr (bytes "0")) :=
  ⟨[], bytes "0", [], [], by decide, Or.inl rfl, Or.inl (by decide), Or.inl rfl, Or.inl rfl⟩

theorem jsonNumber_fraction : JsonNumber (cstr (bytes "0.1")) :=
  ⟨[], bytes "0", bytes ".1", [], by decide, Or.inl rfl, Or.inl (by decide),
    Or.inr ⟨bytes "1", by decide, by decide, by decide⟩, Or.inl rfl⟩

theorem jsonNumber_exponent : JsonNumber (cstr (bytes "1e10")) :=
  ⟨[], bytes "1", [], bytes "e10", by decide, Or.inl rfl,
    Or.inr ⟨'1'.toNat, [], by decide, by decide, by decide⟩, Or.inl rfl,
    Or.inr ⟨'e'.toNat, [], bytes "10", by decide, by decide, Or.inl rfl, by decide,
      by decide⟩⟩

theorem jsonNumber_negative_exponent : JsonNumber (cstr (bytes "1E-10")) :=
  ⟨[], bytes "1", [], bytes "E-10", by decide, Or.inl rfl,
    Or.inr ⟨'1'.toNat, [], by decide, by decide, by decide⟩, Or.inl rfl,
    Or.inr ⟨'E'.toNat, bytes "-", bytes "10", by decide, by decide,
      Or.inr (Or.inr (by decide)), by decide, by decide⟩⟩

theorem jsonNumber_all_parts : JsonNumber (cstr (bytes "-1.5e+2")) :=
  ⟨bytes "-", bytes "1", bytes ".5", bytes "e+2", by decide, Or.inr (by decide),
    Or.inr ⟨'1'.toNat, [], by decide, by decide, by decide⟩,
    Or.inr ⟨bytes "5", by decide, by decide, by decide⟩,
    Or.inr ⟨'e'.toNat, bytes "+", bytes "2", by decide, by decide,
      Or.inr (Or.inl (by decide)), by decide, by decide⟩⟩

/-- C2 at the texts `0`, `0.1`, `1e10`, `1E-10` and `-1.5e+2`, with the sample library; the
last line shows the value stored for `-1.5e+2`, which is `-15 * 10^1`. -/
theorem C2_valid_number_parses_witness :
    ((lept_parse libc_dec 0 v_init (bytes "0")).ret = LEPT_PARSE_OK ∧
      lept_get_type (lept_parse libc_dec 0 v_init (bytes "0")).v = LEPT_NUMBER ∧
      lept_get_number (lept_parse libc_dec 0 v_init (bytes "0")).v =
        (libc_dec.strtod (cstr (bytes "0"))).n) ∧
    ((lept_parse libc_dec 0 v_init (bytes "0.1")).ret = LEPT_PARSE_OK ∧
      lept_get_type (lept_parse libc_dec 0 v_init (bytes "0.1")).v = LEPT_NUMBER ∧
      lept_get_number (lept_parse libc_dec 0 v_init (bytes "0.1")).v =
        (libc_dec.strtod (cstr (bytes "0.1"))).n) ∧
    ((lept_parse libc_dec 0 v_init (bytes "1e10")).ret = LEPT_PARSE_OK ∧
      lept_get_type (lept_parse libc_dec 0 v_init (bytes "1e10")).v = LEPT_NUMBER ∧
      lept_get_number (lept_parse libc_dec 0 v_init (bytes "1e10")).v =
        (libc_dec.strtod (cstr (bytes "1e10"))).n) ∧
    ((lept_parse libc_dec 0 v_init (bytes "1E-10")).ret = LEPT_PARSE_OK ∧
      lept_get_type (lept_parse libc_dec 0 v_init (bytes "1E-10")).v = LEPT_NUMBER ∧
      lept_get_number (lept_parse libc_dec 0 v_init (bytes "1E-10")).v =
        (libc_dec.strtod (cstr (bytes "1E-10"))).n) ∧
    ((lept_parse libc_dec 0 v_init (bytes "-1.5e+2")).ret = LEPT_PARSE_OK ∧
      lept_get_type (lept_parse libc_dec 0 v_init (bytes "-1.5e+2")).v = LEPT_NUMBER ∧
      lept_get_number (lept_parse libc_dec 0 v_init (bytes "-1.5e+2")).v =
        (libc_dec.strtod (cstr (bytes "-1.5e+2"))).n) ∧
    (libc_dec.strtod (cstr (bytes "-1.5e+2"))).n = Dbl.fin true 15 1 :=
  ⟨C2_valid_number_parses libc_dec 0 v_init (bytes "0") jsonNumber_zero
      (by decide) (by decide) (by decide),
    C2_valid_number_parses libc_dec 0 v_init (bytes "0.1") jsonNumber_fraction
      (by decide) (by decide) (by decide),
    C2_valid_number_parses libc_dec 0 v_init (bytes "1e10") jsonNumber_exponent
      (by decide) (by decide) (by decide),
    C2_valid_number_parses libc_dec 0 v_init (bytes "1E-10") jsonNumber_negative_exponent
      (by decide) (by decide) (by decide),
    C2_valid_number_parses libc_dec 0 v_init (bytes "-1.5e+2") jsonNumber_all_parts
      (by decide) (by decide) (by decide),
    by decide⟩

/-! ## The literal path -/

theorem bytes_true : bytes "true" = [116, 114, 117, 101] := by decide

theorem bytes_false : bytes "false" = [102, 97, 108, 115, 101] := by decide

theorem bytes_null : bytes "null" = [110, 117, 108, 108] := by decide

/-- The loop over `true` finds no mismatch exactly when `rue` follows. -/
theorem literal_loop_true (q : List Nat) :
    literal_loop q (bytes "true") 3 1 = false ↔ ∃ r, q = 114 :: 117 :: 101 :: r := by
  rw [bytes_true]
  rcases q with _ | ⟨a, _ | ⟨b, _ | ⟨c, r⟩⟩⟩ <;> simp [literal_loop]

/-- The loop over `false` finds no mismatch exactly when `alse` follows. -/
theorem literal_loop_false (q : List Nat) :
    literal_loop q (bytes "false") 4 1 = false ↔ ∃ r, q = 97 :: 108 :: 115 :: 101 :: r := by
  rw [bytes_false]
  rcases q with _ | ⟨a, _ | ⟨b, _ | ⟨c, _ | ⟨d, r⟩⟩⟩⟩ <;> simp [literal_loop]

/-- The loop over `null` finds no mismatch exactly when `ull` follows. -/
theorem literal_loop_null (q : List Nat) :
    literal_loop q (bytes "null") 3 1 = false ↔ ∃ r, q = 117 :: 108 :: 108 :: r := by
  rw [bytes_null]
  rcases q with _ | ⟨a, _ | ⟨b, _ | ⟨c, r⟩⟩⟩ <;> simp [literal_loop]


/-- After leading whitespace and a complete literal, `lept_parse` only looks at what is left
once further whitespace is skipped: at the terminator it succeeds with the literal's type,
otherwise the root is not singular. -/
theorem lept_parse_literal_then {D : Type} (L : CLib D) (errno : Int) (v : lept_value D)
    (lt : List Nat × lept_type) (hlt : lt ∈ literals) (w p : List Nat) (hw : AllWs w) :
    lept_parse L errno v (w ++ lt.1 ++ p) =
      if deref (lept_parse_whitespace ⟨p⟩).json ≠ 0 then
        ⟨LEPT_PARSE_ROOT_NOT_SINGULAR, ⟨v.n, LEPT_NULL⟩, errno⟩
      else ⟨LEPT_PARSE_OK, ⟨v.n, lt.2⟩, errno⟩ := by
  simp only [literals, List.mem_cons, List.mem_singleton, List.not_mem_nil, or_false] at hlt
  rcases hlt with rfl | rfl | rfl
  · have hs := ws_skip_append w (110 :: 117 :: 108 :: 108 :: p) hw (by rw [deref_cons]; decide)
    simp only [bytes_null, List.append_assoc, List.cons_append, List.nil_append]
    unfold lept_parse
    simp only [hs]
    have hl := (literal_loop_null (117 :: 108 :: 108 :: p)).2 ⟨p, rfl⟩
    simp [lept_parse_value, lept_parse_null, lept_parse_literal, hl]
  · have hs := ws_skip_append w (116 :: 114 :: 117 :: 101 :: p) hw (by rw [deref_cons]; decide)
    simp only [bytes_true, List.append_assoc, List.cons_append, List.nil_append]
    unfold lept_parse
    simp only [hs]
    have hl := (literal_loop_true (114 :: 117 :: 101 :: p)).2 ⟨p, rfl⟩
    simp [lept_parse_value, lept_parse_true, lept_parse_literal, hl]
  · have hs := ws_skip_append w (102 :: 97 :: 108 :: 115 :: 101 :: p) hw (by rw [deref_cons]; decide)
    simp only [bytes_false, List.append_assoc, List.cons_append, List.nil_append]
    unfold lept_parse
    simp only [hs]
    have hl := (literal_loop_false (97 :: 108 :: 115 :: 101 :: p)).2 ⟨p, rfl⟩
    simp [lept_parse_value, lept_parse_false, lept_parse_literal, hl]

/-- A successful number parse sets the type `LEPT_NUMBER`. -/
theorem lept_parse_number_ok_type {D : Type} (L : CLib D) (errno : Int) (c : lept_context)
    (v : lept_value D) (h : (lept_parse_number L errno c v).1.ret = LEPT_PARSE_OK) :
    (lept_parse_number L errno c v).1.v.type = LEPT_NUMBER := by
  unfold lept_parse_number at h ⊢
  simp only at h ⊢
  split_ifs at h ⊢ <;> simp_all

/-- `lept_parse_number` never returns `LEPT_PARSE_EXPECT_VALUE`. -/
theorem lept_parse_number_ne_expect {D : Type} (L : CLib D) (errno : Int)
    (c : lept_context) (v : lept_value D) :
    (lept_parse_number L errno c v).1.ret ≠ LEPT_PARSE_EXPECT_VALUE := by
  unfold lept_parse_number
  simp only
  split_ifs <;> simp

/-- `lept_parse_literal` never returns `LEPT_PARSE_EXPECT_VALUE`. -/
theorem lept_parse_literal_ne_expect {D : Type} (c : lept_context) (v : lept_value D)
    (literal : List Nat) (length : Nat) (type : lept_type) :
    (lept_parse_literal c v literal length type).ret ≠ LEPT_PARSE_EXPECT_VALUE := by
  unfold lept_parse_literal
  simp only
  split_ifs <;> simp

/-- A literal parse that succeeds has found the whole literal at the cursor. -/
theorem lept_parse_value_literal_inv {D : Type} (L : CLib D) (errno : Int) (j : List Nat)
    (v : lept_value D) (h : (lept_parse_value L errno ⟨j⟩ v).1.ret = LEPT_PARSE_OK) :
    (∃ lt ∈ literals, ∃ p, j = lt.1 ++ p) ∨
      (lept_parse_value L errno ⟨j⟩ v).1.v.type = LEPT_NUMBER := by
  unfold lept_parse_value at h ⊢
  simp only at h ⊢
  split_ifs at h ⊢ with h1 h2 h3 h4
  · left
    obtain ⟨a, q, rfl, ha⟩ := exists_cons_of_deref_ne_zero (by rw [h1]; decide : deref j ≠ 0)
    rw [h1] at ha; subst ha
    simp only [lept_parse_true, lept_parse_literal, List.tail_cons] at h
    split_ifs at h with hl
    obtain ⟨r, rfl⟩ := (literal_loop_true q).1 (by simpa using hl)
    exact ⟨(bytes "true", LEPT_TRUE), by simp [literals], r, by rw [bytes_true]; rfl⟩
  · left
    obtain ⟨a, q, rfl, ha⟩ := exists_cons_of_deref_ne_zero (by rw [h2]; decide : deref j ≠ 0)
    rw [h2] at ha; subst ha
    simp only [lept_parse_false, lept_parse_literal, List.tail_cons] at h
    split_ifs at h with hl
    obtain ⟨r, rfl⟩ := (literal_loop_false q).1 (by simpa using hl)
    exact ⟨(bytes "false", LEPT_FALSE), by simp [literals], r, by rw [bytes_false]; rfl⟩
  · left
    obtain ⟨a, q, rfl, ha⟩ := exists_cons_of_deref_ne_zero (by rw [h3]; decide : deref j ≠ 0)
    rw [h3] at ha; subst ha
    simp only [lept_parse_null, lept_parse_literal, List.tail_cons] at h
    split_ifs at h with hl
    obtain ⟨r, rfl⟩ := (literal_loop_null q).1 (by simpa using hl)
    exact ⟨(bytes "null", LEPT_NULL), by simp [literals], r, by rw [bytes_null]; rfl⟩
  · right
    exact lept_parse_number_ok_type L errno _ _ h

/-- What a successful `lept_parse` has read: whitespace, one of the three literals and
whitespace up to the terminator, with the literal's type as result; or a number. -/
theorem lept_parse_ok_inv {D : Type} (L : CLib D) (errno : Int) (v : lept_value D)
    (json : List Nat) (h : (lept_parse L errno v json).ret = LEPT_PARSE_OK) :
    (∃ lt ∈ literals, ∃ w p, AllWs w ∧ json = w ++ lt.1 ++ p ∧
        deref (lept_parse_whitespace ⟨p⟩).json = 0 ∧
        (lept_parse L errno v json).v.type = lt.2) ∨
      (lept_parse L errno v json).v.type = LEPT_NUMBER := by
  obtain ⟨w, hw, hj, -⟩ := ws_skip_split json
  have h0 : (lept_parse_value L errno (lept_parse_whitespace ⟨json⟩)
      { v with type := LEPT_NULL }).1.ret = LEPT_PARSE_OK := by
    by_contra hne
    unfold lept_parse at h
    simp only [hne, if_false] at h
  rcases lept_parse_value_literal_inv L errno _ _ h0 with ⟨lt, hlt, p, hp⟩ | hnum
  · left
    have hjson : json = w ++ lt.1 ++ p := by
      rw [List.append_assoc, ← hp]; exact hj
    have hform := lept_parse_literal_then L errno v lt hlt w p hw
    rw [← hjson] at hform
    refine ⟨lt, hlt, w, p, hw, hjson, ?_, ?_⟩
    · by_contra hne
      rw [hform, if_pos hne] at h
      cases h
    · rw [hform] at h ⊢
      split_ifs at h ⊢ with hne
      rfl
  · right
    unfold lept_parse at h ⊢
    simp only at h ⊢
    split_ifs at h ⊢ with h1
    exact hnum

/-! ## The number path when the validator rejects -/

theorem numberStart_of_sign_or_digit {ch : Nat} (h : ch = '-'.toNat ∨ ISDIGIT ch) :
    NumberStart ch := by
  simp only [NumberStart, isWs, ISDIGIT, Char.reduceToNat] at h ⊢
  omega

/-- The validator's result is what the loop returns within nine passes. -/
theorem validateNumberText_of_loop {c : lept_context} {flag : Int}
    (h : vLoop 9 (vInit c) = some flag) : validateNumberText c = flag := by
  simp [validateNumberText, h]

/-- After leading whitespace, on the number path, a validator result `FALSE` makes
`lept_parse` fail with `LEPT_PARSE_INVALID_VALUE`. -/
theorem lept_parse_flag_false {D : Type} (L : CLib D) (errno : Int) (v : lept_value D)
    (w p : List Nat) (hw : AllWs w) (hp : NumberStart (deref p))
    (hf : validateNumberText ⟨p⟩ = FALSE) :
    lept_parse L errno v (w ++ p) =
      ⟨LEPT_PARSE_INVALID_VALUE, ⟨v.n, LEPT_NULL⟩, errno⟩ := by
  obtain ⟨h1, h2, h3, h4, h5⟩ := hp
  simp only [Char.reduceToNat] at h1 h2 h3
  unfold lept_parse
  simp only [ws_skip_append w p hw h5]
  simp [lept_parse_value, lept_parse_number, h1, h2, h3, h4, hf]

/-- After leading whitespace, on the number path, a validator result `UNKNOWN` makes
`lept_parse` fail with `LEPT_PARSE_ROOT_NOT_SINGULAR`. -/
theorem lept_parse_flag_unknown {D : Type} (L : CLib D) (errno : Int) (v : lept_value D)
    (w p : List Nat) (hw : AllWs w) (hp : NumberStart (deref p))
    (hf : validateNumberText ⟨p⟩ = UNKNOWN) :
    lept_parse L errno v (w ++ p) =
      ⟨LEPT_PARSE_ROOT_NOT_SINGULAR, ⟨v.n, LEPT_NULL⟩, errno⟩ := by
  obtain ⟨h1, h2, h3, h4, h5⟩ := hp
  simp only [Char.reduceToNat] at h1 h2 h3
  have hU : UNKNOWN ≠ FALSE := by decide
  unfold lept_parse
  simp only [ws_skip_append w p hw h5]
  simp [lept_parse_value, lept_parse_number, h1, h2, h3, h4, hf, hU]

/-! ## Claims C3 to C7 -/

/-- C3 at `123 456`: the text `123` alone parses (sample library), while on `123 456`,
which is `123`, one space and a text starting with a non-whitespace byte, the validator says
`FALSE` and `lept_parse` returns `LEPT_PARSE_INVALID_VALUE`, whatever the C library does;
the claim asks for `LEPT_PARSE_ROOT_NOT_SINGULAR`. -/
theorem C3_number_then_token {D : Type} (L : CLib D) (errno : Int) (v : lept_value D) :
    (lept_parse libc_dec 0 v_init (bytes "123")).ret = LEPT_PARSE_OK ∧
    bytes "123 456" = bytes "123" ++ bytes " " ++ bytes "456" ∧
    validateNumberText ⟨bytes "123 456"⟩ = FALSE ∧
    lept_parse L errno v (bytes "123 456") =
      ⟨LEPT_PARSE_INVALID_VALUE, ⟨v.n, LEPT_NULL⟩, errno⟩ :=
  ⟨by decide, by decide, by decide,
    lept_parse_flag_false L errno v [] (bytes "123 456") (by decide) (by decide) (by decide)⟩

/-- C4 at `1` followed by one space: `1` alone parses (sample library), while on `1` and a
space the validator says `FALSE` and `lept_parse` returns `LEPT_PARSE_INVALID_VALUE`,
whatever the C library does; the claim asks for `LEPT_PARSE_OK`.  Likewise `0` parses and
`0` with a space gives `LEPT_PARSE_ROOT_NOT_SINGULAR`. -/
theorem C4_number_then_space {D : Type} (L : CLib D) (errno : Int) (v : lept_value D) :
    (lept_parse libc_dec 0 v_init (bytes "1")).ret = LEPT_PARSE_OK ∧
    lept_parse L errno v (bytes "1 ") =
      ⟨LEPT_PARSE_INVALID_VALUE, ⟨v.n, LEPT_NULL⟩, errno⟩ ∧
    (lept_parse libc_dec 0 v_init (bytes "0")).ret = LEPT_PARSE_OK ∧
    lept_parse L errno v (bytes "0 ") =
      ⟨LEPT_PARSE_ROOT_NOT_SINGULAR, ⟨v.n, LEPT_NULL⟩, errno⟩ :=
  ⟨by decide,
    lept_parse_flag_false L errno v [] (bytes "1 ") (by decide) (by decide) (by decide),
    by decide,
    lept_parse_flag_unknown L errno v [] (bytes "0 ") (by decide) (by decide) (by decide)⟩

theorem literals_nulfree {lt : List Nat × lept_type} (h : lt ∈ literals) :
    ∀ ch ∈ lt.1, ch ≠ 0 := by
  simp only [literals, List.mem_cons, List.mem_singleton, List.not_mem_nil, or_false] at h
  rcases h with rfl | rfl | rfl <;> decide

theorem literals_type_inj {lt lt1 : List Nat × lept_type} (h : lt ∈ literals)
    (h1 : lt1 ∈ literals) (ht : lt1.2 = lt.2) : lt1 = lt := by
  simp only [literals, List.mem_cons, List.mem_singleton, List.not_mem_nil, or_false] at h h1
  rcases h with rfl | rfl | rfl <;> rcases h1 with rfl | rfl | rfl <;>
    first | rfl | (exact absurd ht (by decide))

theorem literals_type_ne_number {lt : List Nat × lept_type} (h : lt ∈ literals) :
    lt.2 ≠ LEPT_NUMBER := by
  simp only [literals, List.mem_cons, List.mem_singleton, List.not_mem_nil, or_false] at h
  rcases h with rfl | rfl | rfl <;> decide

theorem allWs_nulfree {w : List Nat} (h : AllWs w) : ∀ ch ∈ w, ch ≠ 0 :=
  fun ch hc => isWs_ne_zero (h ch hc)

/-- The counterexample to C5 as stated: `truee` is `true` followed by one more
non-whitespace byte, and `lept_parse` returns `LEPT_PARSE_ROOT_NOT_SINGULAR` on it, not
`LEPT_PARSE_INVALID_VALUE`. -/
theorem C5_truee_counterexample :
    bytes "truee" = bytes "true" ++ bytes "e" ∧ ¬ isWs 'e'.toNat ∧
    (lept_parse libc_dec 0 v_init (bytes "truee")).ret = LEPT_PARSE_ROOT_NOT_SINGULAR ∧
    (lept_parse libc_dec 0 v_init (bytes "truee")).ret ≠ LEPT_PARSE_INVALID_VALUE := by
  decide

/-- C5 as amended: on a text that is one of the literals `null`, `true`, `false` immediately
followed by one or more non-whitespace bytes, `lept_parse` returns
`LEPT_PARSE_ROOT_NOT_SINGULAR` and the type is `LEPT_NULL`. -/
theorem C5_literal_then_more {D : Type} (L : CLib D) (errno : Int) (v : lept_value D)
    (json : List Nat) (lt : List Nat × lept_type) (rest : List Nat) (hlt : lt ∈ literals)
    (hs : cstr json = lt.1 ++ rest) (hne : rest ≠ []) (hr : ∀ ch ∈ rest, ¬ isWs ch) :
    (lept_parse L errno v json).ret = LEPT_PARSE_ROOT_NOT_SINGULAR ∧
    (lept_parse L errno v json).v.type = LEPT_NULL := by
  obtain ⟨t, hmem, -⟩ := cstr_split json
  obtain ⟨a, r, rfl⟩ := List.exists_cons_of_ne_nil hne
  have ha0 : a ≠ 0 := cstr_nulfree json a (by rw [hs]; simp)
  have haw : ¬ isWs a := hr a (by simp)
  have hjson : json = [] ++ lt.1 ++ (a :: (r ++ t)) := by
    conv_lhs => rw [hmem, hs]
    simp
  have hform := lept_parse_literal_then L errno v lt hlt [] (a :: (r ++ t)) (by simp [AllWs])
  rw [← hjson, ws_skip_id _ (by simpa using haw)] at hform
  rw [hform]
  simp [ha0]

/-- C5 as amended, at `truee`. -/
theorem C5_literal_then_more_witness :
    (lept_parse libc_dec 0 v_init (bytes "truee")).ret = LEPT_PARSE_ROOT_NOT_SINGULAR ∧
    (lept_parse libc_dec 0 v_init (bytes "truee")).v.type = LEPT_NULL :=
  C5_literal_then_more libc_dec 0 v_init (bytes "truee") (bytes "true", LEPT_TRUE)
    (bytes "e") (by decide) (by decide) (by decide) (by decide)

/-- For each literal and its type: `lept_parse` succeeds with that type exactly on the texts
that are the literal between two runs of whitespace. -/
theorem lept_parse_literal_iff {D : Type} (L : CLib D) (errno : Int) (v : lept_value D)
    (json : List Nat) (lt : List Nat × lept_type) (hlt : lt ∈ literals) :
    ((lept_parse L errno v json).ret = LEPT_PARSE_OK ∧
        (lept_parse L errno v json).v.type = lt.2) ↔
      ∃ w1 w2, AllWs w1 ∧ AllWs w2 ∧ cstr json = w1 ++ lt.1 ++ w2 := by
  constructor
  · rintro ⟨hok, hty⟩
    rcases lept_parse_ok_inv L errno v json hok with ⟨lt1, hlt1, w, p, hw, hjson, hend, hty1⟩ | hn
    · have heq : lt1 = lt := literals_type_inj hlt hlt1 (by rw [← hty1, hty])
      subst heq
      obtain ⟨w2, hw2, hp, -⟩ := ws_skip_split p
      refine ⟨w, w2, hw, hw2, ?_⟩
      have hj2 : json = (w ++ lt1.1 ++ w2) ++ (lept_parse_whitespace ⟨p⟩).json := by
        rw [List.append_assoc _ w2, ← hp]; exact hjson
      conv_lhs => rw [hj2]
      apply cstr_append _ _ _ hend
      intro ch hch
      simp only [List.mem_append] at hch
      rcases hch with (hch | hch) | hch
      · exact allWs_nulfree hw ch hch
      · exact literals_nulfree hlt ch hch
      · exact allWs_nulfree hw2 ch hch
    · exact absurd (hty ▸ hn) (literals_type_ne_number hlt)
  · rintro ⟨w1, w2, hw1, hw2, hs⟩
    obtain ⟨t, hmem, ht⟩ := cstr_split json
    have hjson : json = w1 ++ lt.1 ++ (w2 ++ t) := by
      conv_lhs => rw [hmem, hs]
      simp
    have hform := lept_parse_literal_then L errno v lt hlt w1 (w2 ++ t) hw1
    rw [← hjson, ws_skip_append w2 t hw2 (by rw [ht]; exact not_isWs_zero)] at hform
    rw [hform]
    simp [ht]

/-- C6: for each literal with its type (`null` / `LEPT_NULL`, `true` / `LEPT_TRUE`,
`false` / `LEPT_FALSE`), `lept_parse` returns `LEPT_PARSE_OK` with that type if and only if
the text is the literal with zero or more whitespace bytes on each side. -/
theorem C6_literal_ok_iff {D : Type} (L : CLib D) (errno : Int) (v : lept_value D)
    (json : List Nat) :
    (((lept_parse L errno v json).ret = LEPT_PARSE_OK ∧
        lept_get_type (lept_parse L errno v json).v = LEPT_NULL) ↔
      ∃ w1 w2, AllWs w1 ∧ AllWs w2 ∧ cstr json = w1 ++ bytes "null" ++ w2) ∧
    (((lept_parse L errno v json).ret = LEPT_PARSE_OK ∧
        lept_get_type (lept_parse L errno v json).v = LEPT_TRUE) ↔
      ∃ w1 w2, AllWs w1 ∧ AllWs w2 ∧ cstr json = w1 ++ bytes "true" ++ w2) ∧
    (((lept_parse L errno v json).ret = LEPT_PARSE_OK ∧
        lept_get_type (lept_parse L errno v json).v = LEPT_FALSE) ↔
      ∃ w1 w2, AllWs w1 ∧ AllWs w2 ∧ cstr json = w1 ++ bytes "false" ++ w2) :=
  ⟨lept_parse_literal_iff L errno v json (bytes "null", LEPT_NULL) (by simp [literals]),
    lept_parse_literal_iff L errno v json (bytes "true", LEPT_TRUE) (by simp [literals]),
    lept_parse_literal_iff L errno v json (bytes "false", LEPT_FALSE) (by simp [literals])⟩

/-- C6 at the text space, tab, `true`, CR, LF (accepted as `LEPT_TRUE`) and at `True` and
`tru` (not accepted as `LEPT_TRUE`: they are not `true` between whitespace). -/
theorem C6_literal_ok_iff_witness :
    ((lept_parse libc_dec 0 v_init (bytes " \t" ++ bytes "true" ++ bytes "\r\n")).ret =
        LEPT_PARSE_OK ∧
      lept_get_type (lept_parse libc_dec 0 v_init
        (bytes " \t" ++ bytes "true" ++ bytes "\r\n")).v = LEPT_TRUE) ∧
    (lept_parse libc_dec 0 v_init (bytes "True")).ret = LEPT_PARSE_INVALID_VALUE ∧
    (lept_parse libc_dec 0 v_init (bytes "tru")).ret = LEPT_PARSE_INVALID_VALUE :=
  ⟨(C6_literal_ok_iff libc_dec 0 v_init (bytes " \t" ++ bytes "true" ++ bytes "\r\n")).2.1.mpr
      ⟨bytes " \t", bytes "\r\n", by decide, by decide, by decide⟩,
    by decide, by decide⟩

/-- On a text of whitespace only `lept_parse` finds the terminator where a value should
start. -/
theorem lept_parse_allWs {D : Type} (L : CLib D) (errno : Int) (v : lept_value D)
    (json : List Nat) (h : AllWs (cstr json)) :
    lept_parse L errno v json = ⟨LEPT_PARSE_EXPECT_VALUE, ⟨v.n, LEPT_NULL⟩, errno⟩ := by
  obtain ⟨t, hmem, ht⟩ := cstr_split json
  have hs := ws_skip_append (cstr json) t h (by rw [ht]; exact not_isWs_zero)
  rw [← hmem] at hs
  unfold lept_parse
  simp only [hs]
  simp [lept_parse_value, ht]

/-- `lept_parse_value` returns `LEPT_PARSE_EXPECT_VALUE` only at the terminator. -/
theorem lept_parse_value_expect {D : Type} (L : CLib D) (errno : Int) (c : lept_context)
    (v : lept_value D) (h : (lept_parse_value L errno c v).1.ret = LEPT_PARSE_EXPECT_VALUE) :
    deref c.json = 0 := by
  unfold lept_parse_value at h
  split_ifs at h with h1 h2 h3 h4
  · exact absurd h (lept_parse_literal_ne_expect _ _ _ _ _)
  · exact absurd h (lept_parse_literal_ne_expect _ _ _ _ _)
  · exact absurd h (lept_parse_literal_ne_expect _ _ _ _ _)
  · exact h4
  · exact absurd h (lept_parse_number_ne_expect _ _ _ _)

/-- C7: `lept_parse` returns `LEPT_PARSE_EXPECT_VALUE` if and only if the text is empty or
consists of whitespace bytes only, and then the type is `LEPT_NULL`. -/
theorem C7_expect_value_iff {D : Type} (L : CLib D) (errno : Int) (v : lept_value D)
    (json : List Nat) :
    ((lept_parse L errno v json).ret = LEPT_PARSE_EXPECT_VALUE ↔ AllWs (cstr json)) ∧
    ((lept_parse L errno v json).ret = LEPT_PARSE_EXPECT_VALUE →
      (lept_parse L errno v json).v.type = LEPT_NULL) := by
  have hiff : (lept_parse L errno v json).ret = LEPT_PARSE_EXPECT_VALUE ↔
      AllWs (cstr json) := by
    constructor
    · intro h
      obtain ⟨w, hw, hj, -⟩ := ws_skip_split json
      have hv : (lept_parse_value L errno (lept_parse_whitespace ⟨json⟩)
          { v with type := LEPT_NULL }).1.ret = LEPT_PARSE_EXPECT_VALUE := by
        unfold lept_parse at h
        simp only at h
        split_ifs at h with h1 h2
        all_goals exact h
      have h0 := lept_parse_value_expect L errno _ _ hv
      have hc : cstr json = w := by
        conv_lhs => rw [hj]
        exact cstr_append w _ (allWs_nulfree hw) h0
      rw [hc]; exact hw
    · intro h
      rw [lept_parse_allWs L errno v json h]
  refine ⟨hiff, fun h => ?_⟩
  rw [lept_parse_allWs L errno v json (hiff.1 h)]

/-- C7 at the empty text and at three spaces. -/
theorem C7_expect_value_iff_witness :
    ((lept_parse libc_dec 0 v_init (bytes "")).ret = LEPT_PARSE_EXPECT_VALUE ∧
      (lept_parse libc_dec 0 v_init (bytes "")).v.type = LEPT_NULL) ∧
    ((lept_parse libc_dec 0 v_init (bytes "   ")).ret = LEPT_PARSE_EXPECT_VALUE ∧
      (lept_parse libc_dec 0 v_init (bytes "   ")).v.type = LEPT_NULL) :=
  ⟨⟨(C7_expect_value_iff libc_dec 0 v_init (bytes "")).1.mpr (by decide),
      (C7_expect_value_iff libc_dec 0 v_init (bytes "")).2
        ((C7_expect_value_iff libc_dec 0 v_init (bytes "")).1.mpr (by decide))⟩,
    ⟨(C7_expect_value_iff libc_dec 0 v_init (bytes "   ")).1.mpr (by decide),
      (C7_expect_value_iff libc_dec 0 v_init (bytes "   ")).2
        ((C7_expect_value_iff libc_dec 0 v_init (bytes "   ")).1.mpr (by decide))⟩⟩

/-! ## Claims C8 to C10: what the validator rejects -/

/-- The digit scan runs over a block of digits and stops at the first other byte. -/
theorem skip_digits_append (ds q : List Nat) (hds : AllDigits ds)
    (hq : ¬ ISDIGIT (deref q)) : skip_digits (ds ++ q) = q := by
  unfold skip_digits
  induction ds with
  | nil =>
    cases q with
    | nil => rfl
    | cons b r => simp at hq; simp [List.dropWhile, hq]
  | cons b r ih =>
    have hb : ISDIGIT b := hds b (by simp)
    simp [List.dropWhile, hb]
    exact ih (fun ch h => hds ch (by simp [h]))

/-- After an optional `-`, a `0` followed by a digit makes the validator answer
`UNKNOWN`. -/
theorem validate_zero_digit (s : List Nat) (d : Nat) (q : List Nat)
    (hs : s = [] ∨ s = ['-'.toNat]) (hd : ISDIGIT d) :
    validateNumberText ⟨s ++ '0'.toNat :: d :: q⟩ = UNKNOWN := by
  apply validateNumberText_of_loop
  have h1 : d ≠ 46 := by simp only [ISDIGIT, Char.reduceToNat] at hd; omega
  have h2 : d ≠ 0 := by simp only [ISDIGIT, Char.reduceToNat] at hd; omega
  have hz : ISDIGIT 48 := by decide
  rcases hs with rfl | rfl <;>
    simp [vLoop, vStep, vInit, hz, h1, h2]

/-- After an optional `-` and an integer part, a `.` that no digit follows makes the
validator answer `FALSE`. -/
theorem validate_dot_no_digit (s i q : List Nat) (hs : s = [] ∨ s = ['-'.toNat])
    (hi : JsonInt i) (hq : ¬ ISDIGIT (deref q)) :
    validateNumberText ⟨s ++ i ++ '.'.toNat :: q⟩ = FALSE := by
  apply validateNumberText_of_loop
  have hz : ISDIGIT 48 := by decide
  rcases hi with rfl | ⟨d, ds, rfl, hd, hds⟩
  · rcases hs with rfl | rfl <;>
      simp [vLoop, vStep, vInit, hz, hq]
  · have hsk : skip_digits (ds ++ 46 :: q) = 46 :: q :=
      skip_digits_append ds (46 :: q) hds (by rw [deref_cons]; decide)
    have h1 : d ≠ 48 := by simp only [ISDIGIT1TO9, Char.reduceToNat] at hd; omega
    have h2 : d ≠ 45 := by simp only [ISDIGIT1TO9, Char.reduceToNat] at hd; omega
    have h3 : ISDIGIT d := by
      simp only [ISDIGIT1TO9, ISDIGIT, Char.reduceToNat] at hd ⊢; omega
    rcases hs with rfl | rfl <;>
      simp [vLoop, vStep, vInit, hq, hsk, h1, h2, h3, hd]

theorem bytes_zero : bytes "0" = [48] := by decide

theorem bytes_dot : bytes "." = [46] := by decide

theorem bytes_minus : bytes "-" = [45] := by decide

/-- C8: on a text made of whitespace, an optional `-`, `0`, an ASCII digit and anything
after it, `lept_parse` returns `LEPT_PARSE_ROOT_NOT_SINGULAR` and the type is
`LEPT_NULL`. -/
theorem C8_zero_then_digit {D : Type} (L : CLib D) (errno : Int) (v : lept_value D)
    (json w s : List Nat) (d : Nat) (rest : List Nat) (hw : AllWs w)
    (hs : s = [] ∨ s = bytes "-") (hd : ISDIGIT d)
    (htext : cstr json = w ++ s ++ bytes "0" ++ [d] ++ rest) :
    (lept_parse L errno v json).ret = LEPT_PARSE_ROOT_NOT_SINGULAR ∧
    (lept_parse L errno v json).v.type = LEPT_NULL := by
  obtain ⟨t, hmem, -⟩ := cstr_split json
  rw [bytes_minus] at hs
  have hjson : json = w ++ (s ++ '0'.toNat :: d :: (rest ++ t)) := by
    conv_lhs => rw [hmem, htext, bytes_zero]
    simp
  have hstart : NumberStart (deref (s ++ '0'.toNat :: d :: (rest ++ t))) := by
    rcases hs with rfl | rfl <;> simp <;> decide
  rw [hjson, lept_parse_flag_unknown L errno v w _ hw hstart
    (validate_zero_digit s d (rest ++ t) hs hd)]
  exact ⟨rfl, rfl⟩

/-- C8 at `01` and, with whitespace, a sign and a tail, at space `-007.5x`. -/
theorem C8_zero_then_digit_witness :
    ((lept_parse libc_dec 0 v_init (bytes "01")).ret = LEPT_PARSE_ROOT_NOT_SINGULAR ∧
      (lept_parse libc_dec 0 v_init (bytes "01")).v.type = LEPT_NULL) ∧
    ((lept_parse libc_dec 0 v_init (bytes " -007.5x")).ret = LEPT_PARSE_ROOT_NOT_SINGULAR ∧
      (lept_parse libc_dec 0 v_init (bytes " -007.5x")).v.type = LEPT_NULL) :=
  ⟨C8_zero_then_digit libc_dec 0 v_init (bytes "01") [] [] '1'.toNat [] (by decide)
      (Or.inl rfl) (by decide) (by decide),
    C8_zero_then_digit libc_dec 0 v_init (bytes " -007.5x") (bytes " ") (bytes "-")
      '0'.toNat (bytes "7.5x") (by decide) (Or.inr rfl) (by decide) (by decide)⟩

/-- C9 at `1e+x`, where a sign follows the exponent marker and no digit follows the sign:
the validator answers `TRUE` (the `p++` that opens the digit scan steps over the byte after
the sign unread), so `lept_parse` does not return `LEPT_PARSE_INVALID_VALUE`; with the
sample library, whose `strtod` stops after `1`, it returns `LEPT_PARSE_ROOT_NOT_SINGULAR`.
Without a sign (`1e`, `1ex`) the answer is `FALSE`, as the claim says.  On `1e+` the same
`p++` steps over the terminator and the answer depends on the memory behind it. -/
theorem C9_signed_exponent_without_digit :
    validateNumberText ⟨bytes "1e+x"⟩ = TRUE ∧
    (lept_parse libc_dec 0 v_init (bytes "1e+x")).ret = LEPT_PARSE_ROOT_NOT_SINGULAR ∧
    validateNumberText ⟨bytes "1e"⟩ = FALSE ∧
    validateNumberText ⟨bytes "1ex"⟩ = FALSE ∧
    cstr (bytes "1e+" ++ 0 :: bytes "5") = bytes "1e+" ∧
    validateNumberText ⟨bytes "1e+" ++ 0 :: bytes "5"⟩ = TRUE ∧
    cstr (bytes "1e+" ++ 0 :: bytes "x") = bytes "1e+" ∧
    validateNumberText ⟨bytes "1e+" ++ 0 :: bytes "x"⟩ = FALSE := by
  decide

/-- C10: on a text made of whitespace, an optional `-`, an integer part (`0`, or a digit
1-9 followed by digits), a `.` and then nothing or a byte that is not a digit,
`lept_parse` returns `LEPT_PARSE_INVALID_VALUE` and the type is `LEPT_NULL`. -/
theorem C10_dot_without_digit {D : Type} (L : CLib D) (errno : Int) (v : lept_value D)
    (json w s i rest : List Nat) (hw : AllWs w) (hs : s = [] ∨ s = bytes "-")
    (hi : JsonInt i) (hrest : rest = [] ∨ ∃ a r, rest = a :: r ∧ ¬ ISDIGIT a)
    (htext : cstr json = w ++ s ++ i ++ bytes "." ++ rest) :
    (lept_parse L errno v json).ret = LEPT_PARSE_INVALID_VALUE ∧
    (lept_parse L errno v json).v.type = LEPT_NULL := by
  obtain ⟨t, hmem, ht⟩ := cstr_split json
  rw [bytes_minus] at hs
  have hjson : json = w ++ (s ++ i ++ '.'.toNat :: (rest ++ t)) := by
    conv_lhs => rw [hmem, htext, bytes_dot]
    simp
  have hq : ¬ ISDIGIT (deref (rest ++ t)) := by
    rcases hrest with rfl | ⟨a, r, rfl, ha⟩
    · simp only [List.nil_append, ht]; decide
    · simpa using ha
  have hstart : NumberStart (deref (s ++ i ++ '.'.toNat :: (rest ++ t))) := by
    apply numberStart_of_sign_or_digit
    rcases hs with rfl | rfl
    · rcases hi with rfl | ⟨d, ds, rfl, hd, -⟩
      · right; simp; decide
      · right
        simp only [List.nil_append, List.cons_append, deref_cons]
        simp only [ISDIGIT1TO9, ISDIGIT, Char.reduceToNat] at hd ⊢
        omega
    · left; simp
  rw [hjson, lept_parse_flag_false L errno v w _ hw hstart
    (validate_dot_no_digit s i (rest ++ t) hs hi hq)]
  exact ⟨rfl, rfl⟩

/-- C10 at `1.` and, with whitespace, a sign, a longer integer part and a tail, at
tab `-120.e5`. -/
theorem C10_dot_without_digit_witness :
    ((lept_parse libc_dec 0 v_init (bytes "1.")).ret = LEPT_PARSE_INVALID_VALUE ∧
      (lept_parse libc_dec 0 v_init (bytes "1.")).v.type = LEPT_NULL) ∧
    ((lept_parse libc_dec 0 v_init (bytes "\t-120.e5")).ret = LEPT_PARSE_INVALID_VALUE ∧
      (lept_parse libc_dec 0 v_init (bytes "\t-120.e5")).v.type = LEPT_NULL) :=
  ⟨C10_dot_without_digit libc_dec 0 v_init (bytes "1.") [] [] (bytes "1") [] (by decide)
      (Or.inl rfl) (Or.inr ⟨'1'.toNat, [], by decide, by decide, by decide⟩) (Or.inl rfl)
      (by decide),
    C10_dot_without_digit libc_dec 0 v_init (bytes "\t-120.e5") (bytes "\t") (bytes "-")
      (bytes "120") (bytes "e5") (by decide) (Or.inr rfl)
      (Or.inr ⟨'1'.toNat, bytes "20", by decide, by decide, by decide⟩)
      (Or.inr ⟨'e'.toNat, bytes "5", by decide, by decide⟩) (by decide)⟩

/-! ## Claim C11: texts that start no value -/

/-- A text that starts with neither `-` nor a digit is rejected in `NUMBER_SYMBOL`. -/
theorem validate_bad_start (p : List Nat) (h1 : deref p ≠ '-'.toNat)
    (h2 : ¬ ISDIGIT (deref p)) : validateNumberText ⟨p⟩ = FALSE := by
  apply validateNumberText_of_loop
  simp only [Char.reduceToNat] at h1
  simp [vLoop, vStep, vInit, h1, h2]

/-- If a NUL-free literal is found at the start of the memory, it is found within the text:
the terminator cannot take part in the match. -/
theorem literal_within_text (lit body t r : List Nat) (hlit : ∀ ch ∈ lit, ch ≠ 0)
    (ht : deref t = 0) (h : body ++ t = lit ++ r) : ∃ r1, body = lit ++ r1 := by
  induction lit generalizing body with
  | nil => exact ⟨body, rfl⟩
  | cons a l ih =>
    cases body with
    | nil =>
      simp only [List.nil_append] at h
      rw [h] at ht
      exact absurd ht (hlit a (by simp))
    | cons b body1 =>
      simp only [List.cons_append, List.cons.injEq] at h
      obtain ⟨r1, hr1⟩ := ih body1 (fun ch hc => hlit ch (by simp [hc])) h.2
      exact ⟨r1, by rw [h.1, hr1]; rfl⟩

/-- When `lept_parse_value` fails after the leading whitespace, `lept_parse` returns its
status and value. -/
theorem lept_parse_of_value_fail {D : Type} (L : CLib D) (errno : Int) (v : lept_value D)
    (w p : List Nat) (hw : AllWs w) (hp : ¬ isWs (deref p))
    (h : (lept_parse_value L errno ⟨p⟩ { v with type := LEPT_NULL }).1.ret ≠ LEPT_PARSE_OK) :
    lept_parse L errno v (w ++ p) =
      ⟨(lept_parse_value L errno ⟨p⟩ { v with type := LEPT_NULL }).1.ret,
        (lept_parse_value L errno ⟨p⟩ { v with type := LEPT_NULL }).1.v,
        (lept_parse_value L errno ⟨p⟩ { v with type := LEPT_NULL }).2⟩ := by
  unfold lept_parse
  simp only [ws_skip_append w p hw hp]
  simp [h]

/-- At `t`, `f` or `n` with the literal incomplete, and at any other byte that is neither
`-`, a digit nor the terminator, `lept_parse_value` returns `LEPT_PARSE_INVALID_VALUE`. -/
theorem lept_parse_value_bad_start {D : Type} (L : CLib D) (errno : Int)
    (v : lept_value D) (p : List Nat) (h0 : deref p ≠ 0) (hminus : deref p ≠ '-'.toNat)
    (hdig : ¬ ISDIGIT (deref p)) (hlit : ∀ lt ∈ literals, ∀ r, p ≠ lt.1 ++ r) :
    (lept_parse_value L errno ⟨p⟩ v).1.ret = LEPT_PARSE_INVALID_VALUE := by
  obtain ⟨a, q, rfl, ha⟩ := exists_cons_of_deref_ne_zero h0
  simp only [deref_cons] at h0 hminus hdig ha
  unfold lept_parse_value
  simp only [deref_cons, Char.reduceToNat]
  split_ifs with h1 h2 h3
  · subst h1
    have hl : literal_loop q (bytes "true") 3 1 = true := by
      by_contra hc
      obtain ⟨r, rfl⟩ := (literal_loop_true q).1 (by simpa using hc)
      exact hlit (bytes "true", LEPT_TRUE) (by simp [literals]) r (by rw [bytes_true]; rfl)
    simp [lept_parse_true, lept_parse_literal, hl]
  · subst h2
    have hl : literal_loop q (bytes "false") 4 1 = true := by
      by_contra hc
      obtain ⟨r, rfl⟩ := (literal_loop_false q).1 (by simpa using hc)
      exact hlit (bytes "false", LEPT_FALSE) (by simp [literals]) r (by rw [bytes_false]; rfl)
    simp [lept_parse_false, lept_parse_literal, hl]
  · subst h3
    have hl : literal_loop q (bytes "null") 3 1 = true := by
      by_contra hc
      obtain ⟨r, rfl⟩ := (literal_loop_null q).1 (by simpa using hc)
      exact hlit (bytes "null", LEPT_NULL) (by simp [literals]) r (by rw [bytes_null]; rfl)
    simp [lept_parse_null, lept_parse_literal, hl]
  · have hf : validateNumberText ⟨a :: q⟩ = FALSE :=
      validate_bad_start (a :: q) (by simpa using hminus) (by simpa using hdig)
    simp [lept_parse_number, hf]

/-- C11: on a text that, after its leading whitespace, is non-empty, begins with neither
`-` nor an ASCII digit and does not begin with the complete literal `null`, `true` or
`false`, `lept_parse` returns `LEPT_PARSE_INVALID_VALUE` and the type is `LEPT_NULL`. -/
theorem C11_no_value_start {D : Type} (L : CLib D) (errno : Int) (v : lept_value D)
    (json w body : List Nat) (hw : AllWs w) (htext : cstr json = w ++ body)
    (hne : body ≠ []) (hws : ¬ isWs (deref body)) (hminus : deref body ≠ '-'.toNat)
    (hdig : ¬ ISDIGIT (deref body)) (hlit : ∀ lt ∈ literals, ∀ r, body ≠ lt.1 ++ r) :
    (lept_parse L errno v json).ret = LEPT_PARSE_INVALID_VALUE ∧
    (lept_parse L errno v json).v.type = LEPT_NULL := by
  obtain ⟨t, hmem, ht⟩ := cstr_split json
  obtain ⟨a, b, rfl⟩ := List.exists_cons_of_ne_nil hne
  have ha0 : a ≠ 0 := cstr_nulfree json a (by rw [htext]; simp)
  have hbody0 : ∀ ch ∈ a :: b, ch ≠ 0 :=
    fun ch hc => cstr_nulfree json ch (by rw [htext]; exact List.mem_append_right w hc)
  have hjson : json = w ++ (a :: (b ++ t)) := by
    conv_lhs => rw [hmem, htext]
    simp
  simp only [deref_cons] at hws hminus hdig
  have hlit1 : ∀ lt ∈ literals, ∀ r, a :: (b ++ t) ≠ lt.1 ++ r := by
    intro lt hlt r hr
    obtain ⟨r1, hr1⟩ := literal_within_text lt.1 (a :: b) t r (literals_nulfree hlt) ht
      (by simpa using hr)
    exact hlit lt hlt r1 hr1
  have hret := lept_parse_value_bad_start L errno { v with type := LEPT_NULL }
    (a :: (b ++ t)) (by simpa using ha0) (by simpa using hminus) (by simpa using hdig) hlit1
  have hfail : (lept_parse_value L errno ⟨a :: (b ++ t)⟩ { v with type := LEPT_NULL }).1.ret ≠
      LEPT_PARSE_OK := by rw [hret]; decide
  rw [hjson, lept_parse_of_value_fail L errno v w _ hw (by simpa using hws) hfail]
  exact ⟨hret, lept_parse_value_fail L errno _ _ rfl hfail⟩

/-- C11 at `True`, `nul`, `.1` and `+1`. -/
theorem C11_no_value_start_witness :
    ((lept_parse libc_dec 0 v_init (bytes "True")).ret = LEPT_PARSE_INVALID_VALUE ∧
      (lept_parse libc_dec 0 v_init (bytes "True")).v.type = LEPT_NULL) ∧
    ((lept_parse libc_dec 0 v_init (bytes "nul")).ret = LEPT_PARSE_INVALID_VALUE ∧
      (lept_parse libc_dec 0 v_init (bytes "nul")).v.type = LEPT_NULL) ∧
    ((lept_parse libc_dec 0 v_init (bytes ".1")).ret = LEPT_PARSE_INVALID_VALUE ∧
      (lept_parse libc_dec 0 v_init (bytes ".1")).v.type = LEPT_NULL) ∧
    ((lept_parse libc_dec 0 v_init (bytes "+1")).ret = LEPT_PARSE_INVALID_VALUE ∧
      (lept_parse libc_dec 0 v_init (bytes "+1")).v.type = LEPT_NULL) :=
  ⟨C11_no_value_start libc_dec 0 v_init (bytes "True") [] (bytes "True") (by decide)
      (by decide) (by decide) (by decide) (by decide) (by decide)
      (by simp [literals, bytes]),
    C11_no_value_start libc_dec 0 v_init (bytes "nul") [] (bytes "nul") (by decide)
      (by decide) (by decide) (by decide) (by decide) (by decide)
      (by simp [literals, bytes]),
    C11_no_value_start libc_dec 0 v_init (bytes ".1") [] (bytes ".1") (by decide)
      (by decide) (by decide) (by decide) (by decide) (by decide)
      (by simp [literals, bytes]),
    C11_no_value_start libc_dec 0 v_init (bytes "+1") [] (bytes "+1") (by decide)
      (by decide) (by decide) (by decide) (by decide) (by decide)
      (by simp [literals, bytes])⟩

/-! ## Claim C12: overflow -/

/-- A text the validator does not answer `FALSE` on starts with `-` or a digit. -/
theorem validate_start {p : List Nat} (h : validateNumberText ⟨p⟩ ≠ FALSE) :
    deref p = '-'.toNat ∨ ISDIGIT (deref p) := by
  by_contra hc
  push_neg at hc
  exact h (validate_bad_start p hc.1 hc.2)

/-- C12: on a text that, after leading whitespace, `validateNumberText` accepts and for
which `strtod` reports range overflow (`ERANGE` with plus or minus `HUGE_VAL`), `lept_parse`
returns `LEPT_PARSE_NUMBER_TOO_BIG` and the type is `LEPT_NULL`. -/
theorem C12_number_too_big {D : Type} (L : CLib D) (errno : Int) (v : lept_value D)
    (w p : List Nat) (hw : AllWs w) (hval : validateNumberText ⟨p⟩ = TRUE)
    (her : (L.strtod (cstr p)).erange = true)
    (hhuge : L.is_huge (L.strtod (cstr p)).n = true) :
    (lept_parse L errno v (w ++ p)).ret = LEPT_PARSE_NUMBER_TOO_BIG ∧
    (lept_parse L errno v (w ++ p)).v.type = LEPT_NULL := by
  have hT1 : TRUE ≠ FALSE := by decide
  have hT2 : TRUE ≠ UNKNOWN := by decide
  obtain ⟨h1, h2, h3, h4, h5⟩ :=
    numberStart_of_sign_or_digit (validate_start (by rw [hval]; exact hT1))
  simp only [Char.reduceToNat] at h1 h2 h3
  have hv : lept_parse_value L errno ⟨p⟩ { v with type := LEPT_NULL } =
      (⟨LEPT_PARSE_NUMBER_TOO_BIG, ⟨p⟩, ⟨(L.strtod (cstr p)).n, LEPT_NULL⟩⟩, ERANGE) := by
    simp [lept_parse_value, lept_parse_number, h1, h2, h3, h4, hval, hT1, hT2, her, hhuge]
  have hfail : (lept_parse_value L errno ⟨p⟩ { v with type := LEPT_NULL }).1.ret ≠
      LEPT_PARSE_OK := by rw [hv]; simp
  rw [lept_parse_of_value_fail L errno v w p hw h5 hfail, hv]
  exact ⟨rfl, rfl⟩

set_option maxRecDepth 4000 in
/-- C12 at `1e400` and at `-1e400` after a space, with the sample library. -/
theorem C12_number_too_big_witness :
    ((lept_parse libc_dec 0 v_init ([] ++ bytes "1e400")).ret = LEPT_PARSE_NUMBER_TOO_BIG ∧
      (lept_parse libc_dec 0 v_init ([] ++ bytes "1e400")).v.type = LEPT_NULL) ∧
    ((lept_parse libc_dec 0 v_init (bytes " " ++ bytes "-1e400")).ret =
        LEPT_PARSE_NUMBER_TOO_BIG ∧
      (lept_parse libc_dec 0 v_init (bytes " " ++ bytes "-1e400")).v.type = LEPT_NULL) :=
  ⟨C12_number_too_big libc_dec 0 v_init [] (bytes "1e400") (by decide) (by decide)
      (by decide) (by decide),
    C12_number_too_big libc_dec 0 v_init (bytes " ") (bytes "-1e400") (by decide)
      (by decide) (by decide) (by decide)⟩

/-! ## Claim C13: leading whitespace -/

/-- Skipping whitespace gives the same cursor with or without a run of whitespace in
front. -/
theorem ws_skip_leading (w p : List Nat) (hw : AllWs w) :
    lept_parse_whitespace ⟨w ++ p⟩ = lept_parse_whitespace ⟨p⟩ := by
  obtain ⟨w1, hw1, hp, hstop⟩ := ws_skip_split p
  have h := ws_skip_append (w ++ w1) (lept_parse_whitespace ⟨p⟩).json
    (fun ch hc => by
      rcases List.mem_append.1 hc with hc | hc
      · exact hw ch hc
      · exact hw1 ch hc) hstop
  rw [List.append_assoc, ← hp] at h
  exact h

/-- C13: with a run of whitespace in front of the text, `lept_parse` returns the same
status, the same type and the same number. -/
theorem C13_leading_whitespace {D : Type} (L : CLib D) (errno : Int) (v : lept_value D)
    (w json : List Nat) (hw : AllWs w) :
    (lept_parse L errno v (w ++ json)).ret = (lept_parse L errno v json).ret ∧
    lept_get_type (lept_parse L errno v (w ++ json)).v =
      lept_get_type (lept_parse L errno v json).v ∧
    lept_get_number (lept_parse L errno v (w ++ json)).v =
      lept_get_number (lept_parse L errno v json).v := by
  have h : lept_parse L errno v (w ++ json) = lept_parse L errno v json := by
    unfold lept_parse
    simp only [ws_skip_leading w json hw]
  rw [h]
  exact ⟨rfl, rfl, rfl⟩

/-- C13 at `-1.5e+2` with space, tab, LF and CR in front: the result is that of
`-1.5e+2`, the number `-15 * 10^1`. -/
theorem C13_leading_whitespace_witness :
    ((lept_parse libc_dec 0 v_init (bytes " \t\n\r" ++ bytes "-1.5e+2")).ret =
        (lept_parse libc_dec 0 v_init (bytes "-1.5e+2")).ret ∧
      lept_get_type (lept_parse libc_dec 0 v_init (bytes " \t\n\r" ++ bytes "-1.5e+2")).v =
        lept_get_type (lept_parse libc_dec 0 v_init (bytes "-1.5e+2")).v ∧
      lept_get_number (lept_parse libc_dec 0 v_init (bytes " \t\n\r" ++ bytes "-1.5e+2")).v =
        lept_get_number (lept_parse libc_dec 0 v_init (bytes "-1.5e+2")).v) ∧
    lept_parse libc_dec 0 v_init (bytes "-1.5e+2") =
      ⟨LEPT_PARSE_OK, ⟨Dbl.fin true 15 1, LEPT_NUMBER⟩, 0⟩ :=
  ⟨C13_leading_whitespace libc_dec 0 v_init (bytes " \t\n\r") (bytes "-1.5e+2") (by decide),
    by decide⟩

/-! ## Claim C14: what the result depends on -/

/-- Started on the same cursor with two values of type `LEPT_NULL` and two values of
`errno`, `lept_parse_value` gives the same status, cursor and type, and the same number
when the type is `LEPT_NUMBER`. -/
theorem lept_parse_value_indep {D : Type} (L : CLib D) (e1 e2 : Int) (c : lept_context)
    (n1 n2 : D) :
    (lept_parse_value L e1 c ⟨n1, LEPT_NULL⟩).1.ret =
      (lept_parse_value L e2 c ⟨n2, LEPT_NULL⟩).1.ret ∧
    (lept_parse_value L e1 c ⟨n1, LEPT_NULL⟩).1.c =
      (lept_parse_value L e2 c ⟨n2, LEPT_NULL⟩).1.c ∧
    (lept_parse_value L e1 c ⟨n1, LEPT_NULL⟩).1.v.type =
      (lept_parse_value L e2 c ⟨n2, LEPT_NULL⟩).1.v.type ∧
    ((lept_parse_value L e1 c ⟨n1, LEPT_NULL⟩).1.v.type = LEPT_NUMBER →
      (lept_parse_value L e1 c ⟨n1, LEPT_NULL⟩).1.v.n =
        (lept_parse_value L e2 c ⟨n2, LEPT_NULL⟩).1.v.n) := by
  unfold lept_parse_value
  split_ifs
  · simp only [lept_parse_true, lept_parse_literal]
    split_ifs <;> simp
  · simp only [lept_parse_false, lept_parse_literal]
    split_ifs <;> simp
  · simp only [lept_parse_null, lept_parse_literal]
    split_ifs <;> simp
  · simp
  · simp only [lept_parse_number]
    split_ifs <;> simp

/-- Two runs of `lept_parse` on the same memory (the text and the bytes behind its
terminator), started with any two contents of the output value and of `errno`, return the
same status and the same type, and the same number when that type is `LEPT_NUMBER`. -/
theorem lept_parse_initial_state_indep {D : Type} (L : CLib D) (e1 e2 : Int)
    (v1 v2 : lept_value D) (json : List Nat) :
    (lept_parse L e1 v1 json).ret = (lept_parse L e2 v2 json).ret ∧
    lept_get_type (lept_parse L e1 v1 json).v = lept_get_type (lept_parse L e2 v2 json).v ∧
    (lept_get_type (lept_parse L e1 v1 json).v = LEPT_NUMBER →
      lept_get_number (lept_parse L e1 v1 json).v =
        lept_get_number (lept_parse L e2 v2 json).v) := by
  obtain ⟨hr, hc, ht, hn⟩ := lept_parse_value_indep L e1 e2
    (lept_parse_whitespace ⟨json⟩) v1.n v2.n
  unfold lept_parse lept_get_type lept_get_number
  simp only
  rw [← hr, ← hc]
  split_ifs with h1 h2
  · exact ⟨rfl, rfl, fun h => by cases h⟩
  · exact ⟨rfl, ht, hn⟩
  · exact ⟨rfl, ht, hn⟩

theorem bytes_sign_exponent : bytes "1e+" = [49, 101, 43] := by decide

/-- Behind the text `1e+`, a byte that is neither a digit, `.`, `e`, `E` nor NUL makes the
validator answer `FALSE`. -/
theorem validate_sign_then_other (a : Nat) (r : List Nat) (ha : ¬ ISDIGIT a)
    (h1 : a ≠ '.'.toNat) (h2 : a ≠ 'e'.toNat) (h3 : a ≠ 'E'.toNat) (h4 : a ≠ 0) :
    validateNumberText ⟨bytes "1e+" ++ 0 :: a :: r⟩ = FALSE := by
  apply validateNumberText_of_loop
  simp only [Char.reduceToNat] at h1 h2 h3
  have hd : ISDIGIT 49 := by decide
  have hd1 : ISDIGIT1TO9 49 := by decide
  have he : ¬ ISDIGIT 101 := by decide
  simp [bytes_sign_exponent, vLoop, vStep, vInit, skip_digits, hd, hd1, he, ha, h1, h2,
    h3, h4]

/-- Behind the text `1e+`, a NUL makes the validator answer `TRUE`. -/
theorem validate_sign_then_nul (r : List Nat) :
    validateNumberText ⟨bytes "1e+" ++ 0 :: 0 :: r⟩ = TRUE := by
  apply validateNumberText_of_loop
  have hd : ISDIGIT 49 := by decide
  have hd1 : ISDIGIT1TO9 49 := by decide
  have he : ¬ ISDIGIT 101 := by decide
  have h0 : ¬ ISDIGIT 0 := by decide
  simp [bytes_sign_exponent, vLoop, vStep, vInit, skip_digits, hd, hd1, he, h0]

/-- C14 at the text `1e+`: two buffers hold this same text and differ only behind its
terminator (a NUL in one, an `x` in the other).  Whatever the output value and `errno` hold
before the call, `lept_parse` returns `LEPT_PARSE_INVALID_VALUE` on the second; on the
first the validator answers `TRUE`, so with any `strtod` that converts part of `1e+`
`lept_parse` returns another status (`LEPT_PARSE_ROOT_NOT_SINGULAR` with the sample
library).  The result therefore does not depend on the text alone. -/
theorem C14_same_text_two_results :
    cstr (bytes "1e+" ++ 0 :: 0 :: bytes "x") = bytes "1e+" ∧
    cstr (bytes "1e+" ++ 0 :: bytes "x") = bytes "1e+" ∧
    lept_parse libc_dec 0 v_init (bytes "1e+" ++ 0 :: 0 :: bytes "x") =
      ⟨LEPT_PARSE_ROOT_NOT_SINGULAR, ⟨Dbl.fin false 1 0, LEPT_NULL⟩, 0⟩ ∧
    lept_parse libc_dec 0 v_init (bytes "1e+" ++ 0 :: bytes "x") =
      ⟨LEPT_PARSE_INVALID_VALUE, ⟨Dbl.fin false 0 0, LEPT_NULL⟩, 0⟩ ∧
    (∀ (L : CLib Dbl) (e1 e2 : Int) (v1 v2 : lept_value Dbl),
      (L.strtod (bytes "1e+")).len ≠ 0 →
      (lept_parse L e1 v1 (bytes "1e+" ++ 0 :: 0 :: bytes "x")).ret ≠
        (lept_parse L e2 v2 (bytes "1e+" ++ 0 :: bytes "x")).ret) := by
  refine ⟨by decide, by decide, by decide, by decide, ?_⟩
  intro L e1 e2 v1 v2 hlen
  have hx : lept_parse L e2 v2 (bytes "1e+" ++ 0 :: bytes "x") =
      ⟨LEPT_PARSE_INVALID_VALUE, ⟨v2.n, LEPT_NULL⟩, e2⟩ :=
    lept_parse_flag_false L e2 v2 [] _ (by decide) (by decide)
      (validate_sign_then_other 120 [] (by decide) (by decide) (by decide) (by decide)
        (by decide))
  have hT : validateNumberText ⟨bytes "1e+" ++ 0 :: 0 :: bytes "x"⟩ = TRUE :=
    validate_sign_then_nul (bytes "x")
  have hc : cstr (bytes "1e+" ++ 0 :: 0 :: bytes "x") = bytes "1e+" := by decide
  have hws : lept_parse_whitespace ⟨bytes "1e+" ++ 0 :: 0 :: bytes "x"⟩ =
      ⟨bytes "1e+" ++ 0 :: 0 :: bytes "x"⟩ := by decide
  have hd : deref (bytes "1e+" ++ 0 :: 0 :: bytes "x") = 49 := by decide
  have hT1 : TRUE ≠ FALSE := by decide
  have hT2 : TRUE ≠ UNKNOWN := by decide
  rw [hx]
  unfold lept_parse
  simp only [hws]
  unfold lept_parse_value lept_parse_number
  simp only [hd, hT, hc, hT1, hT2, hlen, Char.reduceToNat]
  simp only [Nat.reduceEqDiff, if_false]
  split_ifs <;> simp

/-! ## Claims C15 and C16: the validator against the grammar -/

/-- The text `1e5.5` is no JSON number: after the integer part `1` comes the exponent, and
the digits of an exponent cannot hold a `.`. -/
theorem not_jsonNumber_dot_after_exponent : ¬ JsonNumber (cstr (bytes "1e5.5")) := by
  have hc : cstr (bytes "1e5.5") = [49, 101, 53, 46, 53] := by decide
  rw [hc]
  rintro ⟨sg, i, f, x, hs, hsg, hi, hf, hx⟩
  rcases hsg with rfl | rfl
  · rcases hi with rfl | ⟨d, ds, rfl, -, hds⟩
    · simp at hs
    · simp only [List.nil_append, List.cons_append, List.append_assoc, List.cons.injEq] at hs
      obtain ⟨-, hs⟩ := hs
      rcases ds with _ | ⟨a, ds⟩
      · rcases hf with rfl | ⟨fs, rfl, -, -⟩
        · rcases hx with rfl | ⟨e, sg1, ds1, rfl, -, hsg1, -, hds1⟩
          · simp at hs
          · simp only [List.nil_append, List.cons.injEq] at hs
            obtain ⟨-, hs⟩ := hs
            rcases hsg1 with rfl | rfl | rfl
            · simp only [List.nil_append] at hs
              subst hs
              exact absurd (hds1 46 (by simp)) (by decide)
            · simp at hs
            · simp at hs
        · simp at hs
      · simp only [List.cons_append, List.cons.injEq] at hs
        obtain ⟨rfl, -⟩ := hs
        exact absurd (hds 101 (by simp)) (by decide)
  · simp at hs

/-- C15 at `1e5.5`: the validator answers `TRUE` (after the exponent digits the `.` is
taken because `hasDot` is still clear), yet the text is no JSON number; `lept_parse` then
relies on `strtod`, which stops before the `.`.  The text `1e+x` is accepted as well. -/
theorem C15_dot_after_exponent_accepted :
    validateNumberText ⟨bytes "1e5.5"⟩ = TRUE ∧
    ¬ JsonNumber (cstr (bytes "1e5.5")) ∧
    (lept_parse libc_dec 0 v_init (bytes "1e5.5")).ret = LEPT_PARSE_ROOT_NOT_SINGULAR ∧
    validateNumberText ⟨bytes "1e+x"⟩ = TRUE :=
  ⟨by decide, not_jsonNumber_dot_after_exponent, by decide, by decide⟩

/-- The text `0e5` is a JSON number: integer part `0`, no fraction, exponent `e5`. -/
theorem jsonNumber_zero_exponent : JsonNumber (cstr (bytes "0e5")) :=
  ⟨[], bytes "0", [], bytes "e5", by decide, Or.inl rfl, Or.inl (by decide), Or.inl rfl,
    Or.inr ⟨'e'.toNat, [], bytes "5", by decide, by decide, Or.inl rfl, by decide,
      by decide⟩⟩

/-- C16 at `0e5`, a valid JSON number: the validator answers `UNKNOWN`, not `TRUE` (after a
leading `0` it takes only `.` or the terminator), and `lept_parse` returns
`LEPT_PARSE_ROOT_NOT_SINGULAR`, whatever the C library does. -/
theorem C16_zero_with_exponent_rejected {D : Type} (L : CLib D) (errno : Int)
    (v : lept_value D) :
    JsonNumber (cstr (bytes "0e5")) ∧
    validateNumberText ⟨bytes "0e5"⟩ = UNKNOWN ∧
    validateNumberText ⟨bytes "0e5"⟩ ≠ TRUE ∧
    lept_parse L errno v (bytes "0e5") =
      ⟨LEPT_PARSE_ROOT_NOT_SINGULAR, ⟨v.n, LEPT_NULL⟩, errno⟩ :=
  ⟨jsonNumber_zero_exponent, by decide, by decide,
    lept_parse_flag_unknown L errno v [] (bytes "0e5") (by decide) (by decide) (by decide)⟩

/-! ## Claim C17: when the validator answers `UNKNOWN` -/

/-- The loop returns what `validateNumberText` returns. -/
theorem vLoop_validate (c : lept_context) :
    vLoop 9 (vInit c) = some (validateNumberText c) := by
  simp [validateNumberText]

/-- The loop returns `TRUE`, `FALSE` or `UNKNOWN` only. -/
theorem vLoop_flag : ∀ (fuel : Nat) (st : VState) (flag : Int),
    vLoop fuel st = some flag → flag = UNKNOWN ∨ flag = TRUE ∨ flag = FALSE := by
  intro fuel
  induction fuel with
  | zero =>
    intro st flag h
    simp only [vLoop] at h
    split_ifs at h
    cases h
    exact Or.inr (Or.inl rfl)
  | succ n ih =>
    intro st flag h
    obtain ⟨hd, he, p, ph⟩ := st
    cases ph <;> simp only [vLoop, vStep] at h <;>
      first
      | (simp at h; subst h; exact Or.inr (Or.inl rfl))
      | (split_ifs at h <;>
          first
          | exact ih _ _ h
          | (cases h; first
              | exact Or.inl rfl
              | exact Or.inr (Or.inl rfl)
              | exact Or.inr (Or.inr rfl)))

/-- Past `NUMBER_ZERO_OR_OTHER` the loop no longer returns `UNKNOWN`. -/
theorem vLoop_late : ∀ (fuel : Nat) (st : VState),
    st.phase ≠ NUMBER_BEGIN → st.phase ≠ NUMBER_SYMBOL → st.phase ≠ NUMBER_ZERO_OR_OTHER →
    vLoop fuel st ≠ some UNKNOWN := by
  intro fuel
  induction fuel with
  | zero =>
    intro st _ _ _ h
    simp only [vLoop] at h
    split_ifs at h
    cases h
  | succ n ih =>
    intro st h1 h2 h3 h
    obtain ⟨hd, he, p, ph⟩ := st
    cases ph <;> simp only [vLoop, vStep] at h <;>
      first
      | exact absurd rfl h1
      | exact absurd rfl h2
      | exact absurd rfl h3
      | (simp at h; cases h)
      | (split_ifs at h <;>
          first
          | exact ih _ (by simp) (by simp) (by simp) h
          | cases h)

/-- After an optional `-`, a `0` followed by a byte that is neither `.` nor the terminator
makes the validator answer `UNKNOWN`. -/
theorem validate_zero_then (s q : List Nat) (hs : s = [] ∨ s = ['-'.toNat])
    (h1 : deref q ≠ '.'.toNat) (h2 : deref q ≠ 0) :
    validateNumberText ⟨s ++ '0'.toNat :: q⟩ = UNKNOWN := by
  apply validateNumberText_of_loop
  simp only [Char.reduceToNat] at h1
  have hz : ISDIGIT 48 := by decide
  rcases hs with rfl | rfl <;>
    simp [vLoop, vStep, vInit, hz, h1, h2]

/-- What the scan has gone through when `NUMBER_ZERO_OR_OTHER` leads to `UNKNOWN`. -/
theorem vLoop_zero_or_other_unknown (fuel : Nat) (hd he : Bool) (p : List Nat)
    (h : vLoop (fuel + 1) ⟨hd, he, p, NUMBER_ZERO_OR_OTHER⟩ = some UNKNOWN) :
    ∃ q, p = 48 :: q ∧ deref q ≠ 46 ∧ deref q ≠ 0 := by
  have hFU : FALSE ≠ UNKNOWN := by decide
  by_cases h0 : deref p = 48
  · obtain ⟨a, q, rfl, ha⟩ := exists_cons_of_deref_ne_zero (by rw [h0]; decide : deref p ≠ 0)
    rw [h0] at ha
    subst ha
    by_cases h1 : deref q = 46
    · simp [vLoop, vStep, h1] at h
      exact absurd h (vLoop_late fuel _ (by simp) (by simp) (by simp))
    · by_cases h2 : deref q = 0
      · simp [vLoop, vStep, h1, h2] at h
        exact absurd h (vLoop_late fuel _ (by simp) (by simp) (by simp))
      · exact ⟨q, rfl, h1, h2⟩
  · by_cases h3 : ISDIGIT1TO9 (deref p)
    · simp [vLoop, vStep, h0, h3] at h
      exact absurd h (vLoop_late fuel _ (by simp) (by simp) (by simp))
    · simp [vLoop, vStep, h0, h3, hFU] at h

/-- The memory on which the validator answers `UNKNOWN`: an optional `-`, then `0`, then a
byte that is neither `.` nor NUL. -/
theorem validate_unknown_iff (json : List Nat) :
    validateNumberText ⟨json⟩ = UNKNOWN ↔
      ∃ s q, (s = [] ∨ s = ['-'.toNat]) ∧ json = s ++ '0'.toNat :: q ∧
        deref q ≠ '.'.toNat ∧ deref q ≠ 0 := by
  have hFU : FALSE ≠ UNKNOWN := by decide
  constructor
  · intro h
    have hl := vLoop_validate ⟨json⟩
    rw [h] at hl
    simp only [Char.reduceToNat]
    by_cases h1 : deref json = 45
    · obtain ⟨a, r, rfl, ha⟩ :=
        exists_cons_of_deref_ne_zero (by rw [h1]; decide : deref json ≠ 0)
      rw [h1] at ha
      subst ha
      simp [vLoop, vStep, vInit] at hl
      have hl1 : vLoop 7 ⟨false, false, r, NUMBER_ZERO_OR_OTHER⟩ = some UNKNOWN := by
        simpa [vLoop, vStep] using hl
      obtain ⟨q, hq, hq1, hq2⟩ := vLoop_zero_or_other_unknown 6 false false r hl1
      exact ⟨[45], q, Or.inr rfl, by rw [hq]; rfl, hq1, hq2⟩
    · by_cases h2 : ISDIGIT (deref json)
      · have hl1 : vLoop 7 ⟨false, false, json, NUMBER_ZERO_OR_OTHER⟩ = some UNKNOWN := by
          simpa [vLoop, vStep, vInit, h1, h2] using hl
        obtain ⟨q, hq, hq1, hq2⟩ := vLoop_zero_or_other_unknown 6 false false json hl1
        exact ⟨[], q, Or.inl rfl, by rw [hq]; rfl, hq1, hq2⟩
      · simp [vLoop, vStep, vInit, h1, h2, hFU] at hl
  · rintro ⟨s, q, hs, rfl, h1, h2⟩
    exact validate_zero_then s q hs h1 h2

/-- C17: `validateNumberText` returns `UNKNOWN` if and only if the text is an optional `-`,
then `0`, then a byte that is neither `.` nor the end of the text; it never returns anything
but `UNKNOWN`, `TRUE` or `FALSE`. -/
theorem C17_unknown_iff (json : List Nat) :
    (validateNumberText ⟨json⟩ = UNKNOWN ↔
      ∃ s c rest, (s = [] ∨ s = bytes "-") ∧ c ≠ '.'.toNat ∧
        cstr json = s ++ bytes "0" ++ c :: rest) ∧
    (validateNumberText ⟨json⟩ = UNKNOWN ∨ validateNumberText ⟨json⟩ = TRUE ∨
      validateNumberText ⟨json⟩ = FALSE) := by
  refine ⟨?_, vLoop_flag 9 _ _ (vLoop_validate ⟨json⟩)⟩
  rw [validate_unknown_iff, bytes_minus, bytes_zero]
  simp only [Char.reduceToNat]
  constructor
  · rintro ⟨s, q, hs, rfl, h1, h2⟩
    obtain ⟨c, r, rfl, hc⟩ := exists_cons_of_deref_ne_zero h2
    simp only [deref_cons] at h1 h2
    obtain ⟨t, hr, ht⟩ := cstr_split r
    refine ⟨s, c, cstr r, hs, h1, ?_⟩
    have hj : s ++ 48 :: c :: r = (s ++ [48] ++ c :: cstr r) ++ t := by
      conv_lhs => rw [hr]
      simp
    rw [hj]
    apply cstr_append _ _ _ ht
    intro ch hch
    simp only [List.mem_append, List.mem_cons, List.mem_singleton, List.not_mem_nil,
      or_false] at hch
    rcases hch with (hch | hch) | hch | hch
    · rcases hs with rfl | rfl
      · simp at hch
      · simp at hch; omega
    · omega
    · omega
    · exact cstr_nulfree r ch hch
  · rintro ⟨s, c, rest, hs, h1, htext⟩
    obtain ⟨t, hmem, -⟩ := cstr_split json
    have hc0 : c ≠ 0 := cstr_nulfree json c (by rw [htext]; simp)
    refine ⟨s, c :: (rest ++ t), hs, ?_, by simpa using h1, by simpa using hc0⟩
    conv_lhs => rw [hmem, htext]
    simp

/-- C17 at `01`, `-0x` and `0e5` (answer `UNKNOWN`) and at `0`, `0.5`, `10` and `x` (another
answer). -/
theorem C17_unknown_iff_witness :
    validateNumberText ⟨bytes "01"⟩ = UNKNOWN ∧
    validateNumberText ⟨bytes "-0x"⟩ = UNKNOWN ∧
    validateNumberText ⟨bytes "0e5"⟩ = UNKNOWN ∧
    validateNumberText ⟨bytes "0"⟩ = TRUE ∧
    validateNumberText ⟨bytes "0.5"⟩ = TRUE ∧
    validateNumberText ⟨bytes "10"⟩ = TRUE ∧
    validateNumberText ⟨bytes "x"⟩ = FALSE :=
  ⟨(C17_unknown_iff (bytes "01")).1.mpr
      ⟨[], '1'.toNat, [], Or.inl rfl, by decide, by decide⟩,
    (C17_unknown_iff (bytes "-0x")).1.mpr
      ⟨bytes "-", 'x'.toNat, [], Or.inr rfl, by decide, by decide⟩,
    (C17_unknown_iff (bytes "0e5")).1.mpr
      ⟨[], 'e'.toNat, bytes "5", Or.inl rfl, by decide, by decide⟩,
    by decide, by decide, by decide, by decide⟩

/-! ## Claims C18 and C19: where the scan goes -/

/-- C18 at `1e+`: two memories hold the same text `1e+` and differ only after the
terminator, yet the validator answers `TRUE` on one and `FALSE` on the other, so it has read
bytes behind the terminator.  After five passes the cursor stands on the terminator in
phase `NUMBER_DIGIT` (the sign was consumed in `NUMBER_EXPONENT`); the `p++` that opens the
digit scan then steps over it, and the scan runs on over the byte `5` behind it.
`lept_parse` returns a different status for the two memories. -/
theorem C18_scan_passes_terminator :
    cstr (bytes "1e+" ++ 0 :: bytes "5") = bytes "1e+" ∧
    cstr (bytes "1e+" ++ 0 :: bytes "x") = bytes "1e+" ∧
    vIter 5 (vInit ⟨bytes "1e+" ++ 0 :: bytes "5"⟩) =
      ⟨false, true, 0 :: bytes "5", NUMBER_DIGIT⟩ ∧
    (vIter 6 (vInit ⟨bytes "1e+" ++ 0 :: bytes "5"⟩)).p = [] ∧
    validateNumberText ⟨bytes "1e+" ++ 0 :: bytes "5"⟩ = TRUE ∧
    validateNumberText ⟨bytes "1e+" ++ 0 :: bytes "x"⟩ = FALSE ∧
    (lept_parse libc_dec 0 v_init (bytes "1e+" ++ 0 :: bytes "5")).ret =
      LEPT_PARSE_ROOT_NOT_SINGULAR ∧
    (lept_parse libc_dec 0 v_init (bytes "1e+" ++ 0 :: bytes "x")).ret =
      LEPT_PARSE_INVALID_VALUE := by
  decide

/-- The digit scan moves the cursor forward, by no more than the bytes that are left. -/
theorem skip_digits_drop (p : List Nat) : ∃ k, k ≤ p.length ∧ skip_digits p = p.drop k := by
  unfold skip_digits
  induction p with
  | nil => exact ⟨0, le_refl _, rfl⟩
  | cons a q ih =>
    by_cases ha : ISDIGIT a
    · obtain ⟨k, hk, hq⟩ := ih
      refine ⟨k + 1, by simpa using hk, ?_⟩
      simpa [List.dropWhile, ha] using hq
    · exact ⟨0, Nat.zero_le _, by simp [List.dropWhile, ha]⟩

/-- One pass through the loop body leaves the cursor where it was or moves it forward. -/
theorem vStep_forward (st st1 : VState) (h : vStep st = .next st1) :
    ∃ k, st1.p = st.p.drop k := by
  obtain ⟨hd, he, p, ph⟩ := st
  obtain ⟨j, -, hj⟩ := skip_digits_drop p.tail
  cases ph <;> simp only [vStep] at h
  · cases h; exact ⟨0, rfl⟩
  · split_ifs at h <;> cases h
    · exact ⟨1, by simp⟩
    · exact ⟨0, rfl⟩
  · split_ifs at h <;> cases h
    · exact ⟨2, by cases p with
        | nil => rfl
        | cons a q => simp⟩
    · exact ⟨1, by simp⟩
    · exact ⟨0, rfl⟩
  · cases h
  · split_ifs at h <;> cases h
    · exact ⟨j + 2, by simp [hj, List.drop_drop]⟩
    · exact ⟨j + 2, by simp [hj, List.drop_drop]⟩
    · exact ⟨j + 1, by simp [hj, List.drop_drop]⟩
  · split_ifs at h
    cases h
    exact ⟨0, rfl⟩
  · split_ifs at h <;> cases h
    · exact ⟨1, by simp⟩
    · exact ⟨0, rfl⟩
  · cases h; exact ⟨0, rfl⟩

/-- After any number of passes the cursor is the start moved forward. -/
theorem vIter_forward : ∀ (n : Nat) (st : VState), ∃ k, (vIter n st).p = st.p.drop k := by
  intro n
  induction n with
  | zero => exact fun st => ⟨0, rfl⟩
  | succ n ih =>
    intro st
    unfold vIter
    split_ifs with hp
    · exact ⟨0, rfl⟩
    · cases hs : vStep st with
      | ret flag => exact ⟨0, rfl⟩
      | next st1 =>
        obtain ⟨k1, hk1⟩ := vStep_forward st st1 hs
        obtain ⟨k2, hk2⟩ := ih st1
        exact ⟨k1 + k2, by simp only [hk2, hk1, List.drop_drop]⟩

/-- A cursor moved forward is the start moved forward by no more than the bytes there
are. -/
theorem drop_within (l : List Nat) (k : Nat) : ∃ k1, k1 ≤ l.length ∧ l.drop k = l.drop k1 := by
  by_cases h : k ≤ l.length
  · exact ⟨k, h, rfl⟩
  · refine ⟨l.length, le_refl _, ?_⟩
    rw [List.drop_eq_nil_of_le (by omega), List.drop_eq_nil_of_le (le_refl _)]

/-- What holds of the scan: the `while` loop is left, with the function's result, within
nine passes whatever the memory; no pass moves the cursor back; after any number of passes
the cursor is the start moved forward, within the memory; and the digit scan inside a pass
moves forward by no more than the bytes left. -/
theorem validate_forward_passes :
    (∀ c : lept_context, ∃ n, n ≤ 9 ∧ vLoop n (vInit c) = some (validateNumberText c)) ∧
    (∀ st st1 : VState, vStep st = .next st1 → ∃ k, st1.p = st.p.drop k) ∧
    (∀ (c : lept_context) (n : Nat), ∃ k, k ≤ c.json.length ∧
      (vIter n (vInit c)).p = c.json.drop k) ∧
    (∀ p : List Nat, ∃ k, k ≤ p.length ∧ skip_digits p = p.drop k) := by
  refine ⟨fun c => ⟨9, le_refl _, vLoop_validate c⟩, vStep_forward,
    fun c n => ?_, skip_digits_drop⟩
  obtain ⟨k, hk⟩ := vIter_forward n (vInit c)
  obtain ⟨k1, hk1, hd⟩ := drop_within c.json k
  exact ⟨k1, hk1, by rw [hk]; exact hd⟩

/-- The `for` loop leaves the cursor `for_iterations` bytes behind its first step. -/
theorem skip_digits_for_iterations (p : List Nat) :
    skip_digits p.tail = p.tail.drop (for_iterations p) := by
  unfold skip_digits for_iterations
  induction p.tail with
  | nil => rfl
  | cons a q ih =>
    by_cases ha : ISDIGIT a
    · simpa [List.dropWhile, List.takeWhile, ha] using ih
    · simp [List.dropWhile, List.takeWhile, ha]

theorem takeWhile_digits_replicate (N : Nat) :
    (List.replicate N 53).takeWhile (fun ch => decide (ISDIGIT ch)) = List.replicate N 53 := by
  have h5 : ISDIGIT 53 := by decide
  induction N with
  | zero => rfl
  | succ n ih => simp [List.replicate_succ, List.takeWhile, h5, ih]

theorem for_iterations_replicate (a N : Nat) :
    for_iterations (a :: List.replicate N 53) = N := by
  unfold for_iterations
  rw [List.tail_cons, takeWhile_digits_replicate, List.length_replicate]

theorem for_iterations_stop (a b : Nat) (r : List Nat) (hb : ¬ ISDIGIT b) :
    for_iterations (a :: b :: r) = 0 := by
  simp [for_iterations, List.takeWhile, hb]

theorem skip_digits_stop (a : Nat) (r : List Nat) (ha : ¬ ISDIGIT a) :
    skip_digits (a :: r) = a :: r := by
  simp [skip_digits, List.dropWhile, ha]

theorem skip_digits_replicate (N : Nat) : skip_digits (List.replicate N 53) = [] := by
  have h := skip_digits_append (List.replicate N 53) []
    (fun d hd => by rw [List.eq_of_mem_replicate hd]; decide) (by decide)
  simpa using h

/-- On the text `1e+` with `N` digits behind the terminator the validator makes `6 + N`
loop iterations and answers `TRUE`. -/
theorem sign_then_digits_count (N : Nat) :
    cstr (sign_then_digits N) = bytes "1e+" ∧
    validateNumberText ⟨sign_then_digits N⟩ = TRUE ∧
    vCount 9 (vInit ⟨sign_then_digits N⟩) = 6 + N := by
  have hd : ISDIGIT 49 := by decide
  have hd1 : ISDIGIT1TO9 49 := by decide
  have he : ¬ ISDIGIT 101 := by decide
  refine ⟨?_, ?_, ?_⟩
  · unfold sign_then_digits
    exact cstr_append (bytes "1e+") _ (by decide) rfl
  · apply validateNumberText_of_loop
    simp [sign_then_digits, bytes_sign_exponent, vLoop, vStep, vInit, skip_digits_replicate,
      skip_digits_stop 101 _ he, hd, hd1, he]
  · simp [sign_then_digits, bytes_sign_exponent, vCount, vStep, vInit,
      for_iterations_replicate, for_iterations_stop 49 101 _ he, skip_digits_replicate,
      skip_digits_stop 101 _ he, hd, hd1, he]
    ring

/-- C19 at the text `1e+` in a buffer with digits behind the terminator: the text has three
bytes, yet with 100 digits behind it the validator makes 106 loop iterations, and with `N`
digits `6 + N`, so no linear function of the text length bounds the number of iterations.
After the sign the `p++` that opens the `for` loop steps over the terminator and the loop
runs on over the digits behind it. -/
theorem C19_scan_not_bounded_by_text :
    (cstr (sign_then_digits 100)).length = 3 ∧
    vCount 9 (vInit ⟨sign_then_digits 100⟩) = 106 ∧
    (∀ N : Nat, cstr (sign_then_digits N) = bytes "1e+" ∧
      vCount 9 (vInit ⟨sign_then_digits N⟩) = 6 + N) ∧
    ¬ ∃ a b : Nat, ∀ json : List Nat,
      vCount 9 (vInit ⟨json⟩) ≤ a * (cstr json).length + b := by
  have hlen : ∀ N, (cstr (sign_then_digits N)).length = 3 := by
    intro N
    rw [(sign_then_digits_count N).1]
    decide
  refine ⟨hlen 100, (sign_then_digits_count 100).2.2,
    fun N => ⟨(sign_then_digits_count N).1, (sign_then_digits_count N).2.2⟩, ?_⟩
  rintro ⟨a, b, h⟩
  have h1 := h (sign_then_digits (3 * a + b + 1))
  rw [(sign_then_digits_count _).2.2, hlen] at h1
  omega

/-! ## Claim C20: what `lept_parse_literal` leaves behind -/

/-- The counterexample to C20 as stated: called on `nul` for the literal `null`, whose
first byte matches, `lept_parse_literal` returns `LEPT_PARSE_INVALID_VALUE` with the cursor
on `ul`, one byte further than before the call. -/
theorem C20_cursor_moves_on_mismatch :
    deref (bytes "nul") = (bytes "null").getD 0 0 ∧
    (lept_parse_literal ⟨bytes "nul"⟩ v_init (bytes "null") 4 LEPT_NULL).ret =
      LEPT_PARSE_INVALID_VALUE ∧
    (lept_parse_literal ⟨bytes "nul"⟩ v_init (bytes "null") 4 LEPT_NULL).c.json =
      bytes "ul" ∧
    (lept_parse_literal ⟨bytes "nul"⟩ v_init (bytes "null") 4 LEPT_NULL).c.json ≠
      bytes "nul" := by
  decide

/-- C20 as amended: for a call of `lept_parse_literal` whose first input byte equals the
literal's first byte, the status is `LEPT_PARSE_OK` or `LEPT_PARSE_INVALID_VALUE`; with
`LEPT_PARSE_OK` the cursor has advanced by exactly the literal's length and the type is the
requested type; with `LEPT_PARSE_INVALID_VALUE` the cursor has advanced by exactly one byte
(the first byte, which `EXPECT` consumed) and the value's type is unchanged. -/
theorem C20_literal_frame {D : Type} (c : lept_context) (v : lept_value D)
    (literal : List Nat) (length : Nat) (type : lept_type)
    (hfirst : deref c.json = literal.getD 0 0) (hne : literal ≠ [])
    (hlen : length = literal.length) :
    ((lept_parse_literal c v literal length type).ret = LEPT_PARSE_OK ∨
      (lept_parse_literal c v literal length type).ret = LEPT_PARSE_INVALID_VALUE) ∧
    ((lept_parse_literal c v literal length type).ret = LEPT_PARSE_OK →
      (lept_parse_literal c v literal length type).c.json = c.json.drop literal.length ∧
      (lept_parse_literal c v literal length type).v.type = type) ∧
    ((lept_parse_literal c v literal length type).ret = LEPT_PARSE_INVALID_VALUE →
      (lept_parse_literal c v literal length type).c.json = c.json.drop 1 ∧
      (lept_parse_literal c v literal length type).v.type = v.type) := by
  have _ := hfirst
  obtain ⟨a, l, rfl⟩ := List.exists_cons_of_ne_nil hne
  subst hlen
  have htail : ∀ q : List Nat, List.drop l.length q.tail = List.drop (l.length + 1) q := by
    intro q
    cases q <;> simp
  have htail1 : ∀ q : List Nat, q.tail = List.drop 1 q := by
    intro q
    cases q <;> simp
  unfold lept_parse_literal
  simp only
  split_ifs with hl
  · refine ⟨Or.inr rfl, ?_, ?_⟩
    · intro h
      cases h
    · intro _
      exact ⟨htail1 c.json, rfl⟩
  · refine ⟨Or.inl rfl, ?_, ?_⟩
    · intro _
      refine ⟨?_, rfl⟩
      simp [htail c.json]
    · intro h
      cases h

/-- C20 as amended, at `null x` (success: cursor four bytes on, type set) and at `nul`
(mismatch: cursor one byte on, type as before). -/
theorem C20_literal_frame_witness :
    ((lept_parse_literal ⟨bytes "null x"⟩ v_init (bytes "null") 4 LEPT_NULL).ret =
        LEPT_PARSE_OK ∧
      (lept_parse_literal ⟨bytes "null x"⟩ v_init (bytes "null") 4 LEPT_NULL).c.json =
        (bytes "null x").drop (bytes "null").length ∧
      (lept_parse_literal ⟨bytes "null x"⟩ v_init (bytes "null") 4 LEPT_NULL).v.type =
        LEPT_NULL) ∧
    ((lept_parse_literal ⟨bytes "nul"⟩ v_init (bytes "null") 4 LEPT_NULL).ret =
        LEPT_PARSE_INVALID_VALUE ∧
      (lept_parse_literal ⟨bytes "nul"⟩ v_init (bytes "null") 4 LEPT_NULL).c.json =
        (bytes "nul").drop 1 ∧
      (lept_parse_literal ⟨bytes "nul"⟩ v_init (bytes "null") 4 LEPT_NULL).v.type =
        v_init.type) :=
  ⟨⟨by decide,
      (C20_literal_frame ⟨bytes "null x"⟩ v_init (bytes "null") 4 LEPT_NULL (by decide)
        (by decide) (by decide)).2.1 (by decide)⟩,
    ⟨by decide,
      (C20_literal_frame ⟨bytes "nul"⟩ v_init (bytes "null") 4 LEPT_NULL (by decide)
        (by decide) (by decide)).2.2 (by decide)⟩⟩

end Leptjson
